import Mathlib

/-!
# voronoiMeshGenerator: orchestration and resource lifecycle

A shallow embedding of `voronoiMeshGenerator.C` (cfMesh).  The private member
functions, the constructor, the destructor and `writeMesh` become state-passing
functions over `State`; every call of an external collaborator is an `Op` that
is recorded in a trace and may raise a failure chosen by the environment.

Conventions of the embedding:

* a `call` is the invocation of a method of a collaborator, or of a temporary
  that is constructed for its effect (`checkMeshDict`, `renameBoundaryPatches`,
  `meshSurfaceEdgeExtractorFUN`, `new triSurf`, `new meshOctree`);
* constructing a helper that only binds references (`boundaryLayers bl(mesh_)`,
  `meshSurfaceEngine mse(mesh_)`, `meshOptimizer optimizer(mesh_)`, ...) is not
  an operation of its own; where such a constructor takes `*octreePtr_`,
  `*surfacePtr_` or `*modSurfacePtr_` the dereference is recorded, and it is
  recorded again before every method that is invoked on the helper so bound,
  since that method works on the referenced object;
* objects created with `new` are allocations with fresh handles, and
  `deleteDemandDrivenData` releases and nulls;
* the blocks under `# ifdef DEBUG` are compiled out (`//#define DEBUG`);
* `meshDict_` is read-only here: the patch names that `surfaceWithPatches`
  writes back belong to that opaque operation, and the keys the orchestrator
  tests (`surfaceFile`, `anisotropicSources`, `boundaryLayers`,
  `enforceGeometryConstraints`) are the ones of `Env.meshDict`;
* entering and leaving a member function is recorded in the trace.
-/

namespace VoronoiMeshGenerator

/-! ## Configuration dictionary -/

/-- An entry of a dictionary: a primitive value or a nested dictionary. -/
inductive Entry where
  | label (n : Int)
  | bool (b : Bool)
  | word (w : String)
  | dict (entries : List (String × Entry))

/-- A dictionary is a keyed list of entries. -/
abbrev Dict := List (String × Entry)

/-- Failures that can be raised inside the guarded body of the constructor:
a `std::string` (descriptive) or anything else. -/
inductive Failure where
  | descriptive (message : String)
  | other (what : String)
  deriving DecidableEq, Repr

/-- The failure raised by a dictionary read that cannot be satisfied. -/
def fatalRead : Failure := .other "FatalIOError"

/-- Lookup of a key, `dictionary::found`. -/
def Dict.found (d : Dict) (key : String) : Bool := (d.lookup key).isSome

/-- Test that a key holds a nested dictionary, `dictionary::isDict`. -/
def Dict.isDict (d : Dict) (key : String) : Bool :=
  match d.lookup key with
  | some (.dict _) => true
  | _ => false

/-- Nested dictionary under a key, `dictionary::subDict`; fails when the key is
absent or not a dictionary. -/
def Dict.subDict (d : Dict) (key : String) : Except Failure Dict :=
  match d.lookup key with
  | some (.dict e) => .ok e
  | _ => .error fatalRead

/-- Optional read of a label, `readIfPresent<label>`: absent gives `none`,
a label gives its value, any other entry fails. -/
def Dict.readIfPresentLabel (d : Dict) (key : String) : Except Failure (Option Int) :=
  match d.lookup key with
  | none => .ok none
  | some (.label n) => .ok (some n)
  | some _ => .error fatalRead

/-- Read of a boolean with default, `getOrDefault<bool>`. -/
def Dict.getOrDefaultBool (d : Dict) (key : String) (deflt : Bool) : Except Failure Bool :=
  match d.lookup key with
  | none => .ok deflt
  | some (.bool b) => .ok b
  | some _ => .error fatalRead

/-- Mandatory read of a file name, `lookup` converted to `fileName`. -/
def Dict.lookupFileName (d : Dict) (key : String) : Except Failure String :=
  match d.lookup key with
  | some (.word w) => .ok w
  | _ => .error fatalRead

/-- Table of contents of a dictionary, `dictionary::toc`. -/
def Dict.toc (d : Dict) : List String := d.map Prod.fst

/-! ## Operations, events, state -/

/-- Kinds of heap objects: the four owned through the raw pointer members of
the class, and the helper objects a stage function creates with `new` and
holds in a local pointer (`cmPtr`, `msePtr`). -/
inductive Kind where
  | surface
  | modSurface
  | octree
  | pointRegions
  | helper
  deriving DecidableEq, Repr

/-- Calls of external collaborators, one constructor per call site family. -/
inductive Op where
  | checkMeshDict
  | newTriSurf (file : String)
  | metaData
  | addSurfaceFile
  | addSurfaceMeta
  | surfaceWithPatches
  | modifyGeometry
  | newMeshOctree (over : Nat)
  | createOctreeBoxes
  | createMesh
  | morphMesh
  | preMapVertices
  | mapVerticesOntoSurface
  | untangleSurface
  | extractEdges
  | updateMeshPatches
  | meshSurfaceEdgeExtractorFUN
  | optimizeSurface
  | addLayerForAllPatches
  | addLayerForPatch (patchName : String)
  | readSettings
  | refineLayers
  | pointsInBndLayer
  | lockPoints
  | untangleBoundaryLayer
  | surfEnforceConstraints
  | enforceConstraints
  | optimizeMeshFV
  | optimizeLowQualityFaces
  | optimizeBoundaryLayer
  | untangleMeshFV
  | clearAddressingData
  | revertGeometryModification
  | createOctreeWithRefinedBoundary
  | renumberMesh
  | renameBoundaryPatches
  deriving DecidableEq, Repr

/-- Operations that act on `mesh_` (they are constructed from or invoked on
the mesh as a mutable reference). -/
def Op.onMesh : Op → Bool
  | .checkMeshDict | .newTriSurf _ | .metaData | .surfaceWithPatches
  | .modifyGeometry | .newMeshOctree _ | .createOctreeBoxes
  | .createOctreeWithRefinedBoundary | .readSettings => false
  | _ => true

/-- Private member functions of the class. -/
inductive Fn where
  | createVoronoiMesh
  | surfacePreparation
  | mapMeshToSurface
  | extractPatches
  | mapEdgesAndCorners
  | optimiseMeshSurface
  | generateBoudaryLayers
  | refBoundaryLayers
  | optimiseFinalMesh
  | projectSurfaceAfterBackScaling
  | replaceBoundaries
  | renumberMesh
  | generateMesh
  deriving DecidableEq, Repr

/-- What the catch handlers of the constructor print. -/
inductive Diagnostic where
  | message (m : String)
  | warning (w : String)
  deriving DecidableEq, Repr

/-- Observable events, in execution order. -/
inductive Event where
  | call (o : Op)
  | raised (src : Option Op) (f : Failure)
  | alloc (k : Kind) (h : Nat)
  | free (k : Kind) (h : Nat)
  | deref (k : Kind) (h : Nat)
  | enter (fn : Fn)
  | leave (fn : Fn)
  | info (msg : String)
  | diagnostic (d : Diagnostic)
  deriving DecidableEq, Repr

/-- The data members of the class that the orchestration touches, the output
context, and the trace of events. `mesh` lists the completed operations on
`mesh_`; the empty list is the untouched mesh. -/
structure State where
  surfacePtr : Option Nat
  modSurfacePtr : Option Nat
  octreePtr : Option Nat
  pointRegionsPtr : Option Nat
  mesh : List Op
  written : Option (List Op)
  trace : List Event

/-- Everything the run depends on from outside: the dictionary, the number of
feature edges of the loaded surface, the answers of the step controller and
the failures of the collaborators (by trace position and operation). -/
structure Env where
  meshDict : Dict
  featureEdges : Nat
  runCurrentStep : String → Bool
  fails : Nat → Op → Option Failure

/-- How a computation ends: normally, by a raised failure, or by dereferencing
a null pointer. -/
inductive Outcome (α : Type) where
  | ok (a : α)
  | threw (f : Failure)
  | fault

/-- State-passing computations with failure. -/
def M (α : Type) : Type := State → Outcome α × State

/-- Normal return. -/
def M.pure {α : Type} (a : α) : M α := fun s => (.ok a, s)

/-- Sequencing; a failure or fault skips the rest. -/
def M.bind {α β : Type} (m : M α) (f : α → M β) : M β := fun s =>
  match m s with
  | (.ok a, s1) => f a s1
  | (.threw e, s1) => (.threw e, s1)
  | (.fault, s1) => (.fault, s1)

instance : Monad M where
  pure := M.pure
  bind := M.bind

/-- Append an event to the trace. -/
def emit (e : Event) : M Unit := fun s =>
  (.ok (), { s with trace := s.trace ++ [e] })

/-- Raise a failure from the orchestrator's own code. -/
def raise {α : Type} (f : Failure) : M α := fun s =>
  (.threw f, { s with trace := s.trace ++ [.raised none f] })

/-- Lift the result of a dictionary read. -/
def liftRead {α : Type} : Except Failure α → M α
  | .ok a => M.pure a
  | .error f => raise f

/-- Invoke a collaborator: it either raises the failure the environment
dictates, or completes; a completed operation on the mesh is appended to it. -/
def call (env : Env) (o : Op) : M Unit := fun s =>
  match env.fails s.trace.length o with
  | some f => (.threw f, { s with trace := s.trace ++ [.raised (some o) f] })
  | none =>
    (.ok (), { s with
      trace := s.trace ++ [.call o]
      mesh := if o.onMesh then s.mesh ++ [o] else s.mesh })

/-- Allocate a heap object of the given kind; the handle is fresh. -/
def alloc (k : Kind) : M Nat := fun s =>
  (.ok s.trace.length, { s with trace := s.trace ++ [.alloc k s.trace.length] })

/-- Dereference `*octreePtr_`. -/
def useOctree : M Unit := fun s =>
  match s.octreePtr with
  | some h => (.ok (), { s with trace := s.trace ++ [.deref .octree h] })
  | none => (.fault, s)

/-- Dereference `*surfacePtr_`, giving the handle. -/
def useSurface : M Nat := fun s =>
  match s.surfacePtr with
  | some h => (.ok h, { s with trace := s.trace ++ [.deref .surface h] })
  | none => (.fault, s)

/-- Dereference `*modSurfacePtr_`, giving the handle. -/
def useModSurface : M Nat := fun s =>
  match s.modSurfacePtr with
  | some h => (.ok h, { s with trace := s.trace ++ [.deref .modSurface h] })
  | none => (.fault, s)

/-- Read the state. -/
def getState : M State := fun s => (.ok s, s)

/-- Modelled from the spec: `deleteDemandDrivenData` (demandDrivenData.H is not
part of the sources) releases the object a non-null pointer holds and resets
the pointer to null; on a null pointer it does nothing. Instance for
`surfacePtr_`. -/
def deleteSurface : M Unit := fun s =>
  match s.surfacePtr with
  | some h => (.ok (), { s with surfacePtr := none, trace := s.trace ++ [.free .surface h] })
  | none => (.ok (), s)

/-- Instance of `deleteDemandDrivenData` for `modSurfacePtr_`. -/
def deleteModSurface : M Unit := fun s =>
  match s.modSurfacePtr with
  | some h =>
    (.ok (), { s with modSurfacePtr := none, trace := s.trace ++ [.free .modSurface h] })
  | none => (.ok (), s)

/-- Instance of `deleteDemandDrivenData` for `octreePtr_`. -/
def deleteOctree : M Unit := fun s =>
  match s.octreePtr with
  | some h => (.ok (), { s with octreePtr := none, trace := s.trace ++ [.free .octree h] })
  | none => (.ok (), s)

/-- Instance of `deleteDemandDrivenData` for `pointRegionsPtr_`. -/
def deletePointRegions : M Unit := fun s =>
  match s.pointRegionsPtr with
  | some h =>
    (.ok (), { s with pointRegionsPtr := none, trace := s.trace ++ [.free .pointRegions h] })
  | none => (.ok (), s)

/-- Instance of `deleteDemandDrivenData` for a local pointer to a helper
object, which is non-null where the stage functions call it. -/
def deleteHelper (h : Nat) : M Unit := fun s =>
  (.ok (), { s with trace := s.trace ++ [.free .helper h] })

/-- Assignment to `surfacePtr_`. -/
def setSurfacePtr (h : Nat) : M Unit := fun s => (.ok (), { s with surfacePtr := some h })

/-- Assignment to `modSurfacePtr_`. -/
def setModSurfacePtr (h : Nat) : M Unit := fun s =>
  (.ok (), { s with modSurfacePtr := some h })

/-- Assignment to `octreePtr_`. -/
def setOctreePtr (h : Nat) : M Unit := fun s => (.ok (), { s with octreePtr := some h })

/-! ## Private member functions -/

/-- Source: `createVoronoiMesh`. -/
def createVoronoiMesh (env : Env) : M Unit := do
  emit (.enter .createVoronoiMesh)
  useOctree
  useOctree
  call env .createMesh
  emit (.leave .createVoronoiMesh)

/-- Source: `surfacePreparation`. -/
def surfacePreparation (env : Env) : M Unit := do
  emit (.enter .surfacePreparation)
  let cmPtr ← alloc .helper
  call env .morphMesh
  deleteHelper cmPtr
  emit (.leave .surfacePreparation)

/-- Source: `mapMeshToSurface`. -/
def mapMeshToSurface (env : Env) : M Unit := do
  emit (.enter .mapMeshToSurface)
  let msePtr ← alloc .helper
  useOctree
  useOctree
  call env .preMapVertices
  useOctree
  call env .mapVerticesOntoSurface
  useOctree
  useOctree
  call env .untangleSurface
  deleteHelper msePtr
  emit (.leave .mapMeshToSurface)

/-- Source: `extractPatches`. -/
def extractPatches (env : Env) : M Unit := do
  emit (.enter .extractPatches)
  useOctree
  emit (.info "Extracting edges")
  useOctree
  call env .extractEdges
  useOctree
  call env .updateMeshPatches
  emit (.leave .extractPatches)

/-- Source: `mapEdgesAndCorners`. -/
def mapEdgesAndCorners (env : Env) : M Unit := do
  emit (.enter .mapEdgesAndCorners)
  useOctree
  call env .meshSurfaceEdgeExtractorFUN
  emit (.leave .mapEdgesAndCorners)

/-- Source: `optimiseMeshSurface`. -/
def optimiseMeshSurface (env : Env) : M Unit := do
  emit (.enter .optimiseMeshSurface)
  useOctree
  useOctree
  call env .optimizeSurface
  useOctree
  call env .untangleSurface
  emit (.leave .optimiseMeshSurface)

/-- The loop `for (const word& patchName : patchLayers.toc())` of
`generateBoudaryLayers`. -/
def addLayerForPatches (env : Env) : List String → M Unit
  | [] => M.pure ()
  | patchName :: rest => do
    call env (.addLayerForPatch patchName)
    addLayerForPatches env rest

/-- Source: `generateBoudaryLayers`. -/
def generateBoudaryLayers (env : Env) : M Unit := do
  emit (.enter .generateBoudaryLayers)
  if env.meshDict.found "boundaryLayers" then
    let bndLayers ← liftRead (env.meshDict.subDict "boundaryLayers")
    let nLayers ← liftRead (bndLayers.readIfPresentLabel "nLayers")
    match nLayers with
    | some n =>
      if n > 0 then
        call env .addLayerForAllPatches
    | none =>
      if bndLayers.found "patchBoundaryLayers" then
        let patchLayers ← liftRead (bndLayers.subDict "patchBoundaryLayers")
        addLayerForPatches env patchLayers.toc
  emit (.leave .generateBoudaryLayers)

/-- Source: `refBoundaryLayers`. -/
def refBoundaryLayers (env : Env) : M Unit := do
  emit (.enter .refBoundaryLayers)
  if env.meshDict.isDict "boundaryLayers" then
    call env .readSettings
    call env .refineLayers
    call env .pointsInBndLayer
    call env .lockPoints
    call env .untangleBoundaryLayer
  emit (.leave .refBoundaryLayers)

/-- Source: `optimiseFinalMesh`. -/
def optimiseFinalMesh (env : Env) : M Unit := do
  emit (.enter .optimiseFinalMesh)
  let enforceConstraints ←
    liftRead (env.meshDict.getOrDefaultBool "enforceGeometryConstraints" false)
  useOctree
  if enforceConstraints then
    useOctree
    call env .surfEnforceConstraints
  useOctree
  call env .optimizeSurface
  deleteOctree
  if enforceConstraints then
    call env .enforceConstraints
  call env .optimizeMeshFV
  call env .optimizeLowQualityFaces
  call env .optimizeBoundaryLayer
  call env .untangleMeshFV
  call env .clearAddressingData
  let s ← getState
  if s.modSurfacePtr.isSome then
    call env .revertGeometryModification
    deleteModSurface
  emit (.leave .optimiseFinalMesh)

/-- Source: `projectSurfaceAfterBackScaling`. -/
def projectSurfaceAfterBackScaling (env : Env) : M Unit := do
  emit (.enter .projectSurfaceAfterBackScaling)
  if !env.meshDict.found "anisotropicSources" then
    emit (.leave .projectSurfaceAfterBackScaling)
  else
    deleteOctree
    let surf ← useSurface
    call env (.newMeshOctree surf)
    let h ← alloc .octree
    setOctreePtr h
    useOctree
    useOctree
    call env .createOctreeWithRefinedBoundary
    useOctree
    useOctree
    call env .mapVerticesOntoSurface
    optimiseFinalMesh env
    emit (.leave .projectSurfaceAfterBackScaling)

/-- Source: `replaceBoundaries`. -/
def replaceBoundaries (env : Env) : M Unit := do
  emit (.enter .replaceBoundaries)
  call env .renameBoundaryPatches
  emit (.leave .replaceBoundaries)

/-- Source: `renumberMesh`. -/
def renumberMesh (env : Env) : M Unit := do
  emit (.enter .renumberMesh)
  call env .renumberMesh
  emit (.leave .renumberMesh)

/-- Source: `generateMesh`. -/
def generateMesh (env : Env) : M Unit := do
  emit (.enter .generateMesh)
  if env.runCurrentStep "templateGeneration" then
    createVoronoiMesh env
  if env.runCurrentStep "surfaceTopology" then
    surfacePreparation env
  if env.runCurrentStep "surfaceProjection" then
    mapMeshToSurface env
  if env.runCurrentStep "patchAssignment" then
    extractPatches env
  if env.runCurrentStep "edgeExtraction" then
    mapEdgesAndCorners env
    optimiseMeshSurface env
  if env.runCurrentStep "boundaryLayerGeneration" then
    generateBoudaryLayers env
  if env.runCurrentStep "meshOptimisation" then
    optimiseFinalMesh env
    projectSurfaceAfterBackScaling env
  if env.runCurrentStep "boundaryLayerRefinement" then
    refBoundaryLayers env
  renumberMesh env
  replaceBoundaries env
  emit (.leave .generateMesh)

/-! ## Constructor, destructor, writeMesh -/

/-- The member initialiser list: all four pointers null, `mesh_` fresh,
nothing written. -/
def initial : State where
  surfacePtr := none
  modSurfacePtr := none
  octreePtr := none
  pointRegionsPtr := none
  mesh := []
  written := none
  trace := []

/-- The body of the `try` block of the constructor. -/
def guardedBody (env : Env) : M Unit := do
  call env .checkMeshDict
  let surfaceFile ← liftRead (env.meshDict.lookupFileName "surfaceFile")
  call env (.newTriSurf surfaceFile)
  let surf ← alloc .surface
  setSurfacePtr surf
  let _ ← useSurface
  let _ ← useSurface
  call env .metaData
  call env .addSurfaceFile
  call env .addSurfaceMeta
  let _ ← useSurface
  if env.featureEdges != 0 then
    let _ ← useSurface
    let _ ← useSurface
    call env .surfaceWithPatches
    let surfaceWithPatches ← alloc .surface
    deleteSurface
    setSurfacePtr surfaceWithPatches
  if env.meshDict.found "anisotropicSources" then
    let _ ← useSurface
    let _ ← useSurface
    call env .modifyGeometry
    let modSurf ← alloc .modSurface
    setModSurfacePtr modSurf
    let over ← useModSurface
    call env (.newMeshOctree over)
    let h ← alloc .octree
    setOctreePtr h
  else
    let over ← useSurface
    call env (.newMeshOctree over)
    let h ← alloc .octree
    setOctreePtr h
  useOctree
  useOctree
  call env .createOctreeBoxes
  generateMesh env

/-- What each catch handler prints for a failure. -/
def diagnosticOf : Failure → Diagnostic
  | .descriptive message => .message message
  | .other _ => .warning "Meshing process terminated!"

/-- Source: the constructor, a `try` block with the two handlers
`catch (const std::string&)` and `catch (...)`. -/
def construct (env : Env) : Outcome Unit × State :=
  match guardedBody env initial with
  | (.ok (), s) => (.ok (), s)
  | (.threw f, s) => (.ok (), { s with trace := s.trace ++ [.diagnostic (diagnosticOf f)] })
  | (.fault, s) => (.fault, s)

/-- Source: the destructor. -/
def destruct : M Unit := do
  deleteSurface
  deleteModSurface
  deleteOctree
  deletePointRegions

/-- Source: `writeMesh`, which writes `mesh_` to the output context. -/
def writeMesh (s : State) : State := { s with written := some s.mesh }

/-! ## Reasoning vocabulary -/

/-- The state with one more event in its trace. -/
def State.push (s : State) (e : Event) : State := { s with trace := s.trace ++ [e] }

/-- The state after a collaborator call completed. -/
def State.done (s : State) (o : Op) : State :=
  { s with
    trace := s.trace ++ [.call o]
    mesh := if o.onMesh then s.mesh ++ [o] else s.mesh }

/-- Weakest precondition: running `m` from `s` ends normally in a state
satisfying `Q`, or by a raised failure in a state satisfying `E`; it never
dereferences a null pointer. -/
def wp {α : Type} (m : M α) (Q : α → State → Prop) (E : Failure → State → Prop)
    (s : State) : Prop :=
  match m s with
  | (.ok a, s1) => Q a s1
  | (.threw f, s1) => E f s1
  | (.fault, _) => False

/-- Operations invoked by the stage functions that neither allocate nor release
an owned object. -/
def Op.isStageOp : Op → Bool
  | .createMesh | .morphMesh | .preMapVertices | .mapVerticesOntoSurface
  | .untangleSurface | .extractEdges | .updateMeshPatches
  | .meshSurfaceEdgeExtractorFUN | .optimizeSurface | .addLayerForAllPatches
  | .addLayerForPatch _ | .readSettings | .refineLayers | .pointsInBndLayer
  | .lockPoints | .untangleBoundaryLayer | .renumberMesh
  | .renameBoundaryPatches => true
  | _ => false

/-- Member functions other than the finalisation pair. -/
def Fn.isStageFn : Fn → Bool
  | .optimiseFinalMesh | .projectSurfaceAfterBackScaling => false
  | _ => true

/-- Bookkeeping events of the stage functions. -/
def Event.isStageNote : Event → Bool
  | .enter fn => fn.isStageFn
  | .leave fn => fn.isStageFn
  | .info _ => true
  | _ => false

/-- A pair of assertions (normal, exceptional) that the events of the stage
functions cannot invalidate. -/
structure Stable (A : State → Prop) (B : Failure → State → Prop) : Prop where
  note : ∀ s e, A s → e.isStageNote = true → A (s.push e)
  done : ∀ s o, A s → o.isStageOp = true → A (s.done o)
  deref : ∀ s h, A s → s.octreePtr = some h → A (s.push (.deref .octree h))
  helperNew : ∀ s, A s → A (s.push (.alloc .helper s.trace.length))
  helperFree : ∀ s h, A s → A (s.push (.free .helper h))
  failed : ∀ s o f, A s → o.isStageOp = true → B f (s.push (.raised (some o) f))
  raised : ∀ s f, A s → B f (s.push (.raised none f))

/-- The computation `m` maintains `A` on normal return and establishes `B` when
it raises. -/
def Keeps {α : Type} (A : State → Prop) (B : Failure → State → Prop) (m : M α) : Prop :=
  ∀ s, A s → wp m (fun _ => A) B s

/-- Conditional statement `if (c) { m }`. -/
def runIf (c : Bool) (m : M Unit) : M Unit := if c then m else pure ()

/-- The pointer member that owns objects of a kind; helper objects are owned by
no member. -/
def State.ptr (s : State) : Kind → Option Nat
  | .surface => s.surfacePtr
  | .modSurface => s.modSurfacePtr
  | .octree => s.octreePtr
  | .pointRegions => s.pointRegionsPtr
  | .helper => none

/-- Is the event the allocation of an object of kind `k`? -/
def Event.isAlloc (k : Kind) : Event → Bool
  | .alloc k1 _ => decide (k1 = k)
  | _ => false

/-- Is the event the release of an object of kind `k`? -/
def Event.isFree (k : Kind) : Event → Bool
  | .free k1 _ => decide (k1 = k)
  | _ => false

/-- Number of objects of kind `k` created in a trace. -/
def nAlloc (k : Kind) (t : List Event) : Nat := t.countP (Event.isAlloc k)

/-- Number of objects of kind `k` released in a trace. -/
def nFree (k : Kind) (t : List Event) : Nat := t.countP (Event.isFree k)

/-- Heap discipline of one event happening after the events `pre`: an
allocation returns a fresh handle, and a spatial index is allocated only when
no spatial index is live; a release or a dereference of an object owned by a
member hits a live object. -/
def Disciplined (pre : List Event) : Event → Prop
  | .alloc k h =>
    pre.count (.alloc k h) = 0 ∧ (k = .octree → nAlloc .octree pre = nFree .octree pre)
  | .free k h =>
    (k ≠ .helper → pre.count (.alloc k h) = pre.count (.free k h) + 1) ∧
      (k = .octree → nAlloc .octree pre = nFree .octree pre + 1)
  | .deref k h => k ≠ .helper → pre.count (.alloc k h) = pre.count (.free k h) + 1
  | _ => True

/-- A property of every event of a trace, relative to the events before it. -/
def Always (φ : List Event → Event → Prop) (t : List Event) : Prop :=
  ∀ pre e post, t = pre ++ e :: post → φ pre e

/-- Ownership invariant: the live objects of the owned kinds are exactly the
ones the pointer members hold, and the trace obeys the heap discipline
throughout. -/
structure Heap (s : State) : Prop where
  fresh : ∀ k h, Event.alloc k h ∈ s.trace → h < s.trace.length
  once : ∀ k h, s.trace.count (.alloc k h) ≤ 1
  bal : ∀ k h, k ≠ .helper → s.trace.count (.alloc k h) =
    s.trace.count (.free k h) + (if s.ptr k = some h then 1 else 0)
  oct : nAlloc .octree s.trace = nFree .octree s.trace + (if s.octreePtr.isSome then 1 else 0)
  disc : Always Disciplined s.trace

/-- Events that report a failure: a raise, or a handler's diagnostic. -/
def Event.isFailure : Event → Bool
  | .raised _ _ => true
  | .diagnostic _ => true
  | _ => false

/-- No failure has been reported in the trace. -/
def NoFail (t : List Event) : Prop := ∀ e ∈ t, e.isFailure = false

/-- The trace ends with the raise of `f`, the only failure reported. -/
def EndsRaised (f : Failure) (t : List Event) : Prop :=
  ∃ pre src, t = pre ++ [.raised src f] ∧ NoFail pre

/-- The operations on the mesh that completed, in order. -/
def completedOnMesh (t : List Event) : List Op :=
  t.filterMap fun e =>
    match e with
    | .call o => if o.onMesh then some o else none
    | _ => none

/-- Invariant of normal execution. -/
structure Base (s : State) : Prop where
  heap : Heap s
  noFail : NoFail s.trace
  mesh : s.mesh = completedOnMesh s.trace
  written : s.written = none
  regions : s.pointRegionsPtr = none

/-- Invariant right after a failure `f` was raised. -/
structure BaseE (f : Failure) (s : State) : Prop where
  heap : Heap s
  ends : EndsRaised f s.trace
  mesh : s.mesh = completedOnMesh s.trace
  written : s.written = none
  regions : s.pointRegionsPtr = none

/-- Normal-execution invariant together with which pointers are non-null. -/
structure Own (fs fm fo : Bool) (s : State) : Prop where
  base : Base s
  surf : s.surfacePtr.isSome = fs
  modSurf : s.modSurfacePtr.isSome = fm
  octree : s.octreePtr.isSome = fo

/-- Hoare triple over `wp`, ignoring the returned value. -/
def Tr {α : Type} (P : State → Prop) (m : M α) (Q : State → Prop)
    (E : Failure → State → Prop) : Prop :=
  ∀ s, P s → wp m (fun _ => Q) E s

/-- Assignment to the pointer member of a kind. -/
def State.setPtr (s : State) (k : Kind) (v : Option Nat) : State :=
  match k with
  | .surface => { s with surfacePtr := v }
  | .modSurface => { s with modSurfacePtr := v }
  | .octree => { s with octreePtr := v }
  | .pointRegions => { s with pointRegionsPtr := v }
  | .helper => s

/-- Events that do not touch the heap. -/
def Event.isNeutral : Event → Bool
  | .alloc _ _ => false
  | .free _ _ => false
  | .deref _ _ => false
  | _ => true

/-- Bookkeeping events: entering or leaving a member function, progress
output. -/
def Event.isNote : Event → Bool
  | .enter _ => true
  | .leave _ => true
  | .info _ => true
  | _ => false

/-! ## The stage sequence as data -/

/-- The six gated stages that precede finalisation, in source order. -/
def stagesBeforeFinalisation (env : Env) : M Unit := do
  runIf (env.runCurrentStep "templateGeneration") (createVoronoiMesh env)
  runIf (env.runCurrentStep "surfaceTopology") (surfacePreparation env)
  runIf (env.runCurrentStep "surfaceProjection") (mapMeshToSurface env)
  runIf (env.runCurrentStep "patchAssignment") (extractPatches env)
  runIf (env.runCurrentStep "edgeExtraction")
    (do mapEdgesAndCorners env; optimiseMeshSurface env)
  runIf (env.runCurrentStep "boundaryLayerGeneration") (generateBoudaryLayers env)

/-- The body of the `meshOptimisation` stage. -/
def finalisation (env : Env) : M Unit := do
  optimiseFinalMesh env
  projectSurfaceAfterBackScaling env

/-- What follows the `meshOptimisation` stage: the last gated stage and the
unconditional tail. -/
def afterFinalisation (env : Env) : M Unit := do
  runIf (env.runCurrentStep "boundaryLayerRefinement") (refBoundaryLayers env)
  renumberMesh env
  replaceBoundaries env
  emit (.leave .generateMesh)

/-- The fixed order of stage names (spec, section 4.1). -/
def stageNames : List String :=
  [ "templateGeneration", "surfaceTopology", "surfaceProjection", "patchAssignment",
    "edgeExtraction", "boundaryLayerGeneration", "meshOptimisation",
    "boundaryLayerRefinement" ]

/-- The stage descriptors of the spec: each stage name with its body. -/
def stageTable (env : Env) : List (String × M Unit) :=
  [ ("templateGeneration", createVoronoiMesh env),
    ("surfaceTopology", surfacePreparation env),
    ("surfaceProjection", mapMeshToSurface env),
    ("patchAssignment", extractPatches env),
    ("edgeExtraction", do mapEdgesAndCorners env; optimiseMeshSurface env),
    ("boundaryLayerGeneration", generateBoudaryLayers env),
    ("meshOptimisation", finalisation env),
    ("boundaryLayerRefinement", refBoundaryLayers env) ]

/-- Run a list of computations in order. -/
def runAll : List (M Unit) → M Unit
  | [] => pure ()
  | m :: ms => do m; runAll ms

/-- The stage sequence as the spec words it: the bodies of exactly the stages
the controller enables, in the fixed order, then `renumberMesh`, then
`replaceBoundaries`. -/
def pipelineBySpec (env : Env) : M Unit := do
  emit (.enter .generateMesh)
  runAll (((stageTable env).filter (fun p => env.runCurrentStep p.1)).map (fun p => p.2))
  renumberMesh env
  replaceBoundaries env
  emit (.leave .generateMesh)

/-- Modelled from the spec: the step controller (workflowControls is not part
of the sources) in resume mode answers true exactly for the stages at or after
the resume point, given as a position in the fixed order. -/
def resumeFrom (k : Nat) (name : String) : Bool :=
  decide (k ≤ stageNames.indexOf name ∧ stageNames.indexOf name < stageNames.length)

/-- Assertion used during teardown: ownership holds, the pointers of the kinds
in `K` are already null, and the trace extends that of `s0`. -/
def Teardown (s0 : State) (K : Kind → Bool) (s : State) : Prop :=
  Heap s ∧ (∀ k, K k = true → s.ptr k = none) ∧ ∃ r, s.trace = s0.trace ++ r

/-! ## Counting the events of finalisation -/

/-- Is the event an invocation of `o`, completed or failed? -/
def Event.invokes (o : Op) : Event → Bool
  | .call o1 => decide (o1 = o)
  | .raised (some o1) _ => decide (o1 = o)
  | _ => false

/-- Counters of the events that matter for finalisation: entries of
`optimiseFinalMesh`, invocations of `createOctreeWithRefinedBoundary` (the
back-projection sub-pass), completed and attempted reverts of the geometry
modification, releases of the modified surface, and returns from
`projectSurfaceAfterBackScaling`. -/
structure Tally where
  enterFinal : Nat
  backProj : Nat
  reverted : Nat
  revertTried : Nat
  modFreed : Nat
  leftProject : Nat
  deriving DecidableEq, Repr

/-- The counters of a trace. -/
def tally (t : List Event) : Tally where
  enterFinal := t.count (.enter .optimiseFinalMesh)
  backProj := t.countP (Event.invokes .createOctreeWithRefinedBoundary)
  reverted := t.count (.call .revertGeometryModification)
  revertTried := t.countP (Event.invokes .revertGeometryModification)
  modFreed := nFree .modSurface t
  leftProject := t.count (.leave .projectSurfaceAfterBackScaling)

/-- The counters after one more event. -/
def Tally.bump (c : Tally) (e : Event) : Tally where
  enterFinal := c.enterFinal + (tally [e]).enterFinal
  backProj := c.backProj + (tally [e]).backProj
  reverted := c.reverted + (tally [e]).reverted
  revertTried := c.revertTried + (tally [e]).revertTried
  modFreed := c.modFreed + (tally [e]).modFreed
  leftProject := c.leftProject + (tally [e]).leftProject

/-- The counters after a failed invocation (or a failed read, for `none`). -/
def Tally.failAt (c : Tally) (src : Option Op) : Tally := c.bump (.raised src (.other ""))

/-- All counters zero: finalisation has not started. -/
def Tally.zero : Tally := ⟨0, 0, 0, 0, 0, 0⟩

/-- The counters after a completed `meshOptimisation` stage, depending on
whether `anisotropicSources` is declared. -/
def Tally.finished (aniso : Bool) : Tally :=
  if aniso then ⟨2, 1, 1, 1, 1, 1⟩ else ⟨1, 0, 0, 0, 0, 1⟩

/-- The counters that can be observed at any point: either the stage has
completed, or `projectSurfaceAfterBackScaling` has not returned and the
counters are within the bounds of one finalisation. -/
def Tally.ok (aniso : Bool) (c : Tally) : Bool :=
  decide (c = Tally.finished aniso) ||
    (decide (c.leftProject = 0) && decide (c.enterFinal ≤ if aniso then 2 else 1) &&
      decide (c.backProj ≤ if aniso then 1 else 0) && decide (c.reverted ≤ c.revertTried) &&
      decide (c.revertTried ≤ if aniso then 1 else 0) && decide (c.modFreed ≤ c.reverted))

/-- Order constraints of finalisation, relative to the counters so far: the
modified surface is released only after the revert has been applied once; the
revert is applied only during the first finalisation pass; the index is
rebuilt with refined boundary only between the first and the second pass. -/
def OrderedAt (c : Tally) : Event → Bool
  | .free .modSurface _ => decide (c.reverted = 1)
  | .call .revertGeometryModification => decide (c.enterFinal = 1)
  | .call .createOctreeWithRefinedBoundary => decide (c.enterFinal = 1)
  | _ => true

/-- The order constraints for an event after the events `pre`. -/
def Ordered (pre : List Event) (e : Event) : Prop := OrderedAt (tally pre) e = true

/-- Assertion of the counting pass: the counters, the order constraints, and
which pointers are non-null. -/
structure Counted (c : Tally) (fs fm fo : Bool) (s : State) : Prop where
  tally : tally s.trace = c
  order : Always Ordered s.trace
  surf : s.surfacePtr.isSome = fs
  modSurf : s.modSurfacePtr.isSome = fm
  octree : s.octreePtr.isSome = fo

/-- Assertion of the counting pass after a failure. -/
def CountedE (aniso : Bool) (_f : Failure) (s : State) : Prop :=
  (tally s.trace).ok aniso = true ∧ Always Ordered s.trace

/-- Assertion of the counting pass when `generateMesh` returns normally: the
stage either ran to completion or did not run at all. -/
def CountedDone (aniso ran : Bool) (s : State) : Prop :=
  tally s.trace = (if ran then Tally.finished aniso else Tally.zero) ∧ Always Ordered s.trace

/-! ## Concrete environments -/

/-- A run in which every stage is enabled and `morphMesh` (stage
`surfaceTopology`) raises a descriptive failure. -/
def envMorphFails : Env where
  meshDict := [("surfaceFile", .word "surface.stl")]
  featureEdges := 0
  runCurrentStep := fun _ => true
  fails := fun _ o => if o = .morphMesh then some (.descriptive "morphing failed") else none

/-- A `boundaryLayers` section with the given `nLayers` and, in addition, a
`patchBoundaryLayers` mapping naming two patches. -/
def layersSection (nLayers : Int) : Dict :=
  [ ("nLayers", .label nLayers),
    ("patchBoundaryLayers", .dict [("inlet", .dict []), ("wall", .dict [])]) ]

/-- A configuration that asks for layers both globally and per patch; no
operation fails. -/
def envLayers (nLayers : Int) : Env where
  meshDict := [("surfaceFile", .word "surface.stl"), ("boundaryLayers", .dict (layersSection nLayers))]
  featureEdges := 0
  runCurrentStep := fun _ => true
  fails := fun _ _ => none

/-- A configuration in which the key `boundaryLayers` is present but holds a
label instead of a section (`boundaryLayers 3;`); every stage is enabled and
no operation fails. -/
def envLayersNotSection : Env where
  meshDict := [("surfaceFile", .word "surface.stl"), ("boundaryLayers", .label 3)]
  featureEdges := 0
  runCurrentStep := fun _ => true
  fails := fun _ _ => none

/-- A configuration that declares `anisotropicSources`; every stage is enabled
and no operation fails. -/
def envAniso : Env where
  meshDict := [("surfaceFile", .word "surface.stl"), ("anisotropicSources", .dict [])]
  featureEdges := 0
  runCurrentStep := fun _ => true
  fails := fun _ _ => none

/-! # Theorems -/

/-! ## Weakest preconditions and the stage functions -/

theorem bind_eq {α β : Type} (m : M α) (f : α → M β) : (m >>= f) = M.bind m f := rfl
theorem pure_eq {α : Type} (a : α) : (pure a : M α) = M.pure a := rfl

@[simp] theorem wp_bind {α β : Type} (m : M α) (f : α → M β) (Q : β → State → Prop)
    (E : Failure → State → Prop) (s : State) :
    wp (m >>= f) Q E s ↔ wp m (fun a s1 => wp (f a) Q E s1) E s := by
  simp only [wp, bind_eq, M.bind]
  rcases h : m s with ⟨o, s1⟩
  cases o <;> simp

@[simp] theorem wp_pure {α : Type} (a : α) (Q : α → State → Prop)
    (E : Failure → State → Prop) (s : State) : wp (pure a : M α) Q E s ↔ Q a s := by
  simp [wp, pure_eq, M.pure]

@[simp] theorem wp_mpure {α : Type} (a : α) (Q : α → State → Prop)
    (E : Failure → State → Prop) (s : State) : wp (M.pure a) Q E s ↔ Q a s := by
  simp [wp, M.pure]

@[simp] theorem wp_emit (e : Event) (Q : Unit → State → Prop)
    (E : Failure → State → Prop) (s : State) : wp (emit e) Q E s ↔ Q () (s.push e) := by
  simp [wp, emit, State.push]

@[simp] theorem wp_raise {α : Type} (f : Failure) (Q : α → State → Prop)
    (E : Failure → State → Prop) (s : State) :
    wp (raise f : M α) Q E s ↔ E f (s.push (.raised none f)) := by
  simp [wp, raise, State.push]

theorem wp_call (env : Env) (o : Op) (Q : Unit → State → Prop)
    (E : Failure → State → Prop) (s : State) :
    wp (call env o) Q E s ↔
      (∀ f, env.fails s.trace.length o = some f → E f (s.push (.raised (some o) f))) ∧
      (env.fails s.trace.length o = none → Q () (s.done o)) := by
  simp only [wp, call, State.push, State.done]
  cases h : env.fails s.trace.length o <;> simp

@[simp] theorem wp_useOctree (Q : Unit → State → Prop) (E : Failure → State → Prop)
    (s : State) :
    wp useOctree Q E s ↔ ∃ h, s.octreePtr = some h ∧ Q () (s.push (.deref .octree h)) := by
  simp only [wp, useOctree, State.push]
  cases h : s.octreePtr <;> simp

@[simp] theorem wp_alloc (k : Kind) (Q : Nat → State → Prop) (E : Failure → State → Prop)
    (s : State) :
    wp (alloc k) Q E s ↔ Q s.trace.length (s.push (.alloc k s.trace.length)) := by
  simp [wp, alloc, State.push]

@[simp] theorem wp_deleteHelper (h : Nat) (Q : Unit → State → Prop)
    (E : Failure → State → Prop) (s : State) :
    wp (deleteHelper h) Q E s ↔ Q () (s.push (.free .helper h)) := by
  simp [wp, deleteHelper, State.push]

@[simp] theorem wp_ite {α : Type} (c : Prop) [Decidable c] (m1 m2 : M α)
    (Q : α → State → Prop) (E : Failure → State → Prop) (s : State) :
    wp (if c then m1 else m2) Q E s ↔ (c → wp m1 Q E s) ∧ (¬c → wp m2 Q E s) := by
  split <;> simp [*]

theorem wp_mono {α : Type} {m : M α} {Q Q2 : α → State → Prop}
    {E E2 : Failure → State → Prop} {s : State} (h : wp m Q E s)
    (hQ : ∀ a s1, Q a s1 → Q2 a s1) (hE : ∀ f s1, E f s1 → E2 f s1) : wp m Q2 E2 s := by
  unfold wp at *
  rcases h2 : m s with ⟨o, s1⟩
  rw [h2] at h
  cases o <;> simp_all

section stage
variable {A : State → Prop} {B : Failure → State → Prop}

theorem keeps_bind {α β : Type} {m : M α} {f : α → M β} (h1 : Keeps A B m)
    (h2 : ∀ a, Keeps A B (f a)) : Keeps A B (m >>= f) := by
  intro s hA
  rw [wp_bind]
  exact wp_mono (h1 s hA) (fun a s1 h => h2 a s1 h) (fun _ _ h => h)

theorem keeps_pure {α : Type} (a : α) : Keeps A B (pure a : M α) := by
  intro s hA; simpa using hA

theorem keeps_mpure {α : Type} (a : α) : Keeps A B (M.pure a) := by
  intro s hA; simpa using hA

theorem keeps_emit (hS : Stable A B) (e : Event) (he : e.isStageNote = true) :
    Keeps A B (emit e) := by
  intro s hA; simpa using hS.note s e hA he

theorem keeps_call (hS : Stable A B) (env : Env) (o : Op) (ho : o.isStageOp = true) :
    Keeps A B (call env o) := by
  intro s hA
  rw [wp_call]
  exact ⟨fun f _ => hS.failed s o f hA ho, fun _ => hS.done s o hA ho⟩

theorem keeps_useOctree (hS : Stable A B) (hO : ∀ s, A s → s.octreePtr.isSome = true) :
    Keeps A B useOctree := by
  intro s hA
  rw [wp_useOctree]
  obtain ⟨h, hh⟩ := Option.isSome_iff_exists.mp (hO s hA)
  exact ⟨h, hh, hS.deref s h hA hh⟩

theorem keeps_allocHelper (hS : Stable A B) : Keeps A B (alloc .helper) := by
  intro s hA
  rw [wp_alloc]
  exact hS.helperNew s hA

theorem keeps_deleteHelper (hS : Stable A B) (h : Nat) : Keeps A B (deleteHelper h) := by
  intro s hA
  rw [wp_deleteHelper]
  exact hS.helperFree s h hA

theorem keeps_liftRead (hS : Stable A B) {α : Type} (r : Except Failure α) :
    Keeps A B (liftRead r) := by
  intro s hA
  cases r with
  | ok a => simpa [liftRead] using hA
  | error f => simpa [liftRead] using hS.raised s f hA

theorem keeps_ite {α : Type} (c : Prop) [Decidable c] {m1 m2 : M α} (h1 : Keeps A B m1)
    (h2 : Keeps A B m2) : Keeps A B (if c then m1 else m2) := by
  split
  · exact h1
  · exact h2

theorem stage_createVoronoiMesh (env : Env) (hS : Stable A B)
    (hO : ∀ s, A s → s.octreePtr.isSome = true) : Keeps A B (createVoronoiMesh env) := by
  unfold createVoronoiMesh
  repeat first
    | exact keeps_emit hS _ rfl
    | exact keeps_call hS env _ rfl
    | exact keeps_useOctree hS hO
    | apply keeps_bind
    | intro _

theorem stage_surfacePreparation (env : Env) (hS : Stable A B) :
    Keeps A B (surfacePreparation env) := by
  unfold surfacePreparation
  repeat first
    | exact keeps_emit hS _ rfl
    | exact keeps_call hS env _ rfl
    | exact keeps_allocHelper hS
    | exact keeps_deleteHelper hS _
    | apply keeps_bind
    | intro _

theorem stage_mapMeshToSurface (env : Env) (hS : Stable A B)
    (hO : ∀ s, A s → s.octreePtr.isSome = true) : Keeps A B (mapMeshToSurface env) := by
  unfold mapMeshToSurface
  repeat first
    | exact keeps_emit hS _ rfl
    | exact keeps_call hS env _ rfl
    | exact keeps_useOctree hS hO
    | exact keeps_allocHelper hS
    | exact keeps_deleteHelper hS _
    | apply keeps_bind
    | intro _

theorem stage_extractPatches (env : Env) (hS : Stable A B)
    (hO : ∀ s, A s → s.octreePtr.isSome = true) : Keeps A B (extractPatches env) := by
  unfold extractPatches
  repeat first
    | exact keeps_emit hS _ rfl
    | exact keeps_call hS env _ rfl
    | exact keeps_useOctree hS hO
    | apply keeps_bind
    | intro _

theorem stage_mapEdgesAndCorners (env : Env) (hS : Stable A B)
    (hO : ∀ s, A s → s.octreePtr.isSome = true) : Keeps A B (mapEdgesAndCorners env) := by
  unfold mapEdgesAndCorners
  repeat first
    | exact keeps_emit hS _ rfl
    | exact keeps_call hS env _ rfl
    | exact keeps_useOctree hS hO
    | apply keeps_bind
    | intro _

theorem stage_optimiseMeshSurface (env : Env) (hS : Stable A B)
    (hO : ∀ s, A s → s.octreePtr.isSome = true) : Keeps A B (optimiseMeshSurface env) := by
  unfold optimiseMeshSurface
  repeat first
    | exact keeps_emit hS _ rfl
    | exact keeps_call hS env _ rfl
    | exact keeps_useOctree hS hO
    | apply keeps_bind
    | intro _

theorem stage_addLayerForPatches (env : Env) (hS : Stable A B) (names : List String) :
    Keeps A B (addLayerForPatches env names) := by
  induction names with
  | nil => exact keeps_mpure ()
  | cons n rest ih =>
    unfold addLayerForPatches
    exact keeps_bind (keeps_call hS env _ rfl) (fun _ => ih)

theorem stage_generateBoudaryLayers (env : Env) (hS : Stable A B) :
    Keeps A B (generateBoudaryLayers env) := by
  unfold generateBoudaryLayers
  dsimp only
  refine keeps_bind (keeps_emit hS _ rfl) (fun _ => ?_)
  refine keeps_ite _ ?_ (keeps_bind (keeps_pure _) (fun _ => keeps_emit hS _ rfl))
  refine keeps_bind (keeps_liftRead hS _) (fun bndLayers => ?_)
  refine keeps_bind (keeps_liftRead hS _) (fun nLayers => ?_)
  cases nLayers with
  | some n =>
    exact keeps_ite _ (keeps_bind (keeps_call hS env _ rfl) (fun _ => keeps_emit hS _ rfl))
      (keeps_bind (keeps_pure _) (fun _ => keeps_emit hS _ rfl))
  | none =>
    refine keeps_ite _ ?_ (keeps_bind (keeps_pure _) (fun _ => keeps_emit hS _ rfl))
    exact keeps_bind (keeps_liftRead hS _) (fun _ =>
      keeps_bind (stage_addLayerForPatches env hS _) (fun _ => keeps_emit hS _ rfl))

theorem stage_refBoundaryLayers (env : Env) (hS : Stable A B) :
    Keeps A B (refBoundaryLayers env) := by
  unfold refBoundaryLayers
  dsimp only
  repeat first
    | exact keeps_emit hS _ rfl
    | exact keeps_call hS env _ rfl
    | exact keeps_pure _
    | apply keeps_bind
    | apply keeps_ite
    | intro _

theorem stage_renumberMesh (env : Env) (hS : Stable A B) : Keeps A B (renumberMesh env) := by
  unfold renumberMesh
  repeat first
    | exact keeps_emit hS _ rfl
    | exact keeps_call hS env _ rfl
    | apply keeps_bind
    | intro _

theorem stage_replaceBoundaries (env : Env) (hS : Stable A B) :
    Keeps A B (replaceBoundaries env) := by
  unfold replaceBoundaries
  repeat first
    | exact keeps_emit hS _ rfl
    | exact keeps_call hS env _ rfl
    | apply keeps_bind
    | intro _

end stage

/-! ## Properties of traces -/

theorem always_nil (φ : List Event → Event → Prop) : Always φ [] := by
  intro pre e post h
  simp at h

theorem always_snoc {φ : List Event → Event → Prop} {t : List Event} {e : Event}
    (h : Always φ t) (he : φ t e) : Always φ (t ++ [e]) := by
  intro pre e1 post heq
  rcases List.eq_nil_or_concat post with hp | ⟨post1, x, hp⟩
  · subst hp
    obtain ⟨h1, h2⟩ := List.append_inj' heq (by simp)
    simp only [List.cons.injEq, and_true] at h2
    subst h1 h2
    exact he
  · subst hp
    have heq2 : t ++ [e] = (pre ++ e1 :: post1) ++ [x] := by simpa using heq
    exact h pre e1 post1 (List.append_inj' heq2 (by simp)).1

theorem always_left {φ : List Event → Event → Prop} {t u : List Event}
    (h : Always φ (t ++ u)) : Always φ t := by
  intro pre e post heq
  exact h pre e (post ++ u) (by simp [heq])

theorem count_single_ne {a b : Event} (h : b ≠ a) : [b].count a = 0 := by
  rw [List.count_eq_zero, List.mem_singleton]
  exact fun h1 => h h1.symm

theorem nAlloc_append (k : Kind) (t u : List Event) :
    nAlloc k (t ++ u) = nAlloc k t + nAlloc k u := by
  simp [nAlloc, List.countP_append]

theorem nFree_append (k : Kind) (t u : List Event) :
    nFree k (t ++ u) = nFree k t + nFree k u := by
  simp [nFree, List.countP_append]

/-! ## The ownership invariant is kept by every primitive -/

theorem heap_extend {s s2 : State} {e : Event} (hs : Heap s)
    (ht : s2.trace = s.trace ++ [e])
    (hfresh : ∀ k h, e = .alloc k h → h = s.trace.length)
    (hbal : ∀ k h, k ≠ .helper →
      [e].count (.alloc k h) + (if s.ptr k = some h then 1 else 0) =
      [e].count (.free k h) + (if s2.ptr k = some h then 1 else 0))
    (hoct : nAlloc .octree [e] + (if s.octreePtr.isSome then 1 else 0) =
      nFree .octree [e] + (if s2.octreePtr.isSome then 1 else 0))
    (hdisc : Disciplined s.trace e) : Heap s2 := by
  refine ⟨?_, ?_, ?_, ?_, ?_⟩
  · intro k h hm
    rw [ht] at hm ⊢
    rw [List.length_append, List.length_singleton]
    rcases List.mem_append.mp hm with h1 | h1
    · exact Nat.lt_succ_of_lt (hs.fresh k h h1)
    · rw [List.mem_singleton] at h1
      rw [hfresh k h h1.symm]
      exact Nat.lt_succ_self _
  · intro k h
    rw [ht, List.count_append]
    by_cases he : e = .alloc k h
    · have h0 : s.trace.count (.alloc k h) = 0 := by
        rw [List.count_eq_zero]
        intro hm
        have := hs.fresh k h hm
        rw [hfresh k h he] at this
        exact Nat.lt_irrefl _ this
      rw [h0, he]
      simp
    · have h1 : [e].count (.alloc k h) = 0 := by
        rw [List.count_eq_zero, List.mem_singleton]
        exact fun h => he h.symm
      rw [h1]
      exact hs.once k h
  · intro k h hk
    rw [ht, List.count_append, List.count_append]
    have h1 := hs.bal k h hk
    have h2 := hbal k h hk
    omega
  · rw [ht, nAlloc_append, nFree_append]
    have h1 := hs.oct
    omega
  · rw [ht]
    exact always_snoc hs.disc hdisc

theorem ptr_setPtr (s : State) (k k1 : Kind) (v : Option Nat) (hk : k1 ≠ .helper) :
    (s.setPtr k v).ptr k1 = if k1 = k then v else s.ptr k1 := by
  cases k <;> cases k1 <;> simp_all [State.setPtr, State.ptr]

@[simp] theorem trace_setPtr (s : State) (k : Kind) (v : Option Nat) :
    (s.setPtr k v).trace = s.trace := by
  cases k <;> rfl

@[simp] theorem trace_push (s : State) (e : Event) : (s.push e).trace = s.trace ++ [e] := rfl

@[simp] theorem trace_done (s : State) (o : Op) : (s.done o).trace = s.trace ++ [.call o] := rfl

@[simp] theorem ptr_push (s : State) (e : Event) : (s.push e).ptr = s.ptr := by
  funext k; cases k <;> rfl

@[simp] theorem ptr_done (s : State) (o : Op) : (s.done o).ptr = s.ptr := by
  funext k; cases k <;> rfl

theorem heap_push_neutral {s : State} (hs : Heap s) (e : Event) (he : e.isNeutral = true) :
    Heap (s.push e) := by
  refine heap_extend hs (e := e) rfl ?_ ?_ ?_ ?_
  · intro k h h1; subst h1; simp [Event.isNeutral] at he
  · intro k h _; cases e <;> simp_all [Event.isNeutral]
  · cases e <;> simp_all [Event.isNeutral, nAlloc, nFree, Event.isAlloc, Event.isFree, State.push]
  · cases e <;> simp_all [Event.isNeutral, Disciplined]

theorem heap_done {s : State} (hs : Heap s) (o : Op) : Heap (s.done o) := by
  refine heap_extend hs (e := .call o) rfl ?_ ?_ ?_ ?_
  · intro k h h1; cases h1
  · intro k h _; simp
  · simp [nAlloc, nFree, Event.isAlloc, Event.isFree, State.done]
  · simp [Disciplined]

theorem heap_deref {s : State} (hs : Heap s) (k : Kind) (h : Nat) (hp : s.ptr k = some h) :
    Heap (s.push (.deref k h)) := by
  refine heap_extend hs (e := .deref k h) rfl ?_ ?_ ?_ ?_
  · intro k1 h1 h2; cases h2
  · intro k1 h1 _; simp
  · simp [nAlloc, nFree, Event.isAlloc, Event.isFree, State.push]
  · intro hk
    have := hs.bal k h hk
    simpa [hp] using this

theorem heap_free {s : State} (hs : Heap s) (k : Kind) (h : Nat) (hp : s.ptr k = some h) :
    Heap ((s.setPtr k none).push (.free k h)) := by
  refine heap_extend hs (e := .free k h) (by simp) ?_ ?_ ?_ ?_
  · intro k1 h1 h2; cases h2
  · intro k1 h1 hk1
    simp only [ptr_push, ptr_setPtr _ _ _ _ hk1]
    by_cases hk : k1 = k
    · subst hk
      by_cases hh : h1 = h
      · subst hh; simp [hp]
      · have : ¬ (h = h1) := fun h2 => hh h2.symm
        simp [hp, hh, this]
    · have : ¬ (k = k1) := fun h2 => hk h2.symm
      simp [hk, this]
  · have h1 := hs.oct
    cases k <;>
      simp_all [nAlloc, nFree, Event.isAlloc, Event.isFree, State.push, State.setPtr, State.ptr]
  · have h2 := hs.oct
    refine ⟨fun hk => by simpa [hp] using hs.bal k h hk, ?_⟩
    intro hk
    subst hk
    simp only [State.ptr] at hp
    simpa [hp] using h2

theorem heap_alloc {s : State} (hs : Heap s) (k : Kind) (hp : s.ptr k = none) :
    Heap ((s.setPtr k (some s.trace.length)).push (.alloc k s.trace.length)) := by
  have h0 : ∀ k1, s.trace.count (.alloc k1 s.trace.length) = 0 := by
    intro k1
    rw [List.count_eq_zero]
    exact fun hm => Nat.lt_irrefl _ (hs.fresh k1 _ hm)
  refine heap_extend hs (e := .alloc k s.trace.length) (by simp) ?_ ?_ ?_ ?_
  · intro k1 h1 h2; cases h2; rfl
  · intro k1 h1 hk1
    simp only [ptr_push, ptr_setPtr _ _ _ _ hk1]
    by_cases hk : k1 = k
    · subst hk
      by_cases hh : h1 = s.trace.length
      · subst hh; simp [hp]
      · have : ¬ (s.trace.length = h1) := fun h2 => hh h2.symm
        simp [hp, hh, this]
    · have : ¬ (k = k1) := fun h2 => hk h2.symm
      simp [hk, this]
  · have h1 := hs.oct
    cases k <;>
      simp_all [nAlloc, nFree, Event.isAlloc, Event.isFree, State.push, State.setPtr, State.ptr]
  · refine ⟨h0 k, ?_⟩
    intro hk
    subst hk
    have h2 := hs.oct
    simp only [State.ptr] at hp
    simpa [hp] using h2

theorem heap_freeHelper {s : State} (hs : Heap s) (h : Nat) :
    Heap (s.push (.free .helper h)) := by
  refine heap_extend hs (e := .free .helper h) rfl ?_ ?_ ?_ ?_
  · intro k1 h1 h2; cases h2
  · intro k1 h1 hk1
    have : ¬ (Kind.helper = k1) := fun h2 => hk1 h2.symm
    rw [count_single_ne (by simp), count_single_ne (fun h2 => this (by cases h2; rfl)),
      ptr_push]
  · simp [nAlloc, nFree, Event.isAlloc, Event.isFree, State.push]
  · exact ⟨fun hk => absurd rfl hk, fun hk => by cases hk⟩

theorem noFail_nil : NoFail [] := by
  intro e h; simp at h

theorem noFail_snoc {t : List Event} {e : Event} (h : NoFail t) (he : e.isFailure = false) :
    NoFail (t ++ [e]) := by
  intro x hx
  rcases List.mem_append.mp hx with h1 | h1
  · exact h x h1
  · rw [List.mem_singleton] at h1
    subst h1
    exact he

theorem completedOnMesh_snoc_call (t : List Event) (o : Op) :
    completedOnMesh (t ++ [.call o]) =
      if o.onMesh then completedOnMesh t ++ [o] else completedOnMesh t := by
  unfold completedOnMesh
  rw [List.filterMap_append]
  cases h : o.onMesh <;> simp [h]

theorem completedOnMesh_snoc_other (t : List Event) (e : Event) (he : ∀ o, e ≠ .call o) :
    completedOnMesh (t ++ [e]) = completedOnMesh t := by
  unfold completedOnMesh
  rw [List.filterMap_append]
  cases e <;> simp_all

theorem base_push_note {s : State} (hs : Base s) (e : Event) (he : e.isNote = true) :
    Base (s.push e) := by
  refine ⟨heap_push_neutral hs.heap e ?_, noFail_snoc hs.noFail ?_, ?_, hs.written, hs.regions⟩
  · cases e <;> simp_all [Event.isNote, Event.isNeutral]
  · cases e <;> simp_all [Event.isNote, Event.isFailure]
  · show s.mesh = completedOnMesh (s.trace ++ [e])
    rw [completedOnMesh_snoc_other, hs.mesh]
    intro o h; subst h; simp [Event.isNote] at he

theorem base_done {s : State} (hs : Base s) (o : Op) : Base (s.done o) := by
  refine ⟨heap_done hs.heap o, noFail_snoc hs.noFail rfl, ?_, hs.written, hs.regions⟩
  show (if o.onMesh then s.mesh ++ [o] else s.mesh) = completedOnMesh (s.trace ++ [.call o])
  rw [completedOnMesh_snoc_call, hs.mesh]

theorem base_deref {s : State} (hs : Base s) (k : Kind) (h : Nat) (hp : s.ptr k = some h) :
    Base (s.push (.deref k h)) := by
  refine ⟨heap_deref hs.heap k h hp, noFail_snoc hs.noFail rfl, ?_, hs.written, hs.regions⟩
  show s.mesh = completedOnMesh (s.trace ++ [.deref k h])
  rw [completedOnMesh_snoc_other, hs.mesh]
  intro o h; cases h

theorem base_raised {s : State} (hs : Base s) (src : Option Op) (f : Failure) :
    BaseE f (s.push (.raised src f)) := by
  refine ⟨heap_push_neutral hs.heap _ rfl, ⟨s.trace, src, rfl, hs.noFail⟩, ?_, hs.written,
    hs.regions⟩
  show s.mesh = completedOnMesh (s.trace ++ [.raised src f])
  rw [completedOnMesh_snoc_other, hs.mesh]
  intro o h; cases h

theorem base_free {s : State} (hs : Base s) (k : Kind) (h : Nat) (hp : s.ptr k = some h)
    (hk : k ≠ .pointRegions) : Base ((s.setPtr k none).push (.free k h)) := by
  refine ⟨heap_free hs.heap k h hp, ?_, ?_, ?_, ?_⟩
  · simpa using noFail_snoc hs.noFail (e := .free k h) rfl
  · have : completedOnMesh (s.trace ++ [.free k h]) = completedOnMesh s.trace :=
      completedOnMesh_snoc_other _ _ (by intro o h; cases h)
    cases k <;> simpa [State.push, State.setPtr, this] using hs.mesh
  · cases k <;> simpa [State.push, State.setPtr] using hs.written
  · cases k <;> simp_all [State.push, State.setPtr, hs.regions]

theorem base_alloc {s : State} (hs : Base s) (k : Kind) (hp : s.ptr k = none)
    (hk : k ≠ .pointRegions) :
    Base ((s.setPtr k (some s.trace.length)).push (.alloc k s.trace.length)) := by
  refine ⟨heap_alloc hs.heap k hp, ?_, ?_, ?_, ?_⟩
  · simpa using noFail_snoc hs.noFail (e := .alloc k s.trace.length) rfl
  · have : completedOnMesh (s.trace ++ [.alloc k s.trace.length]) = completedOnMesh s.trace :=
      completedOnMesh_snoc_other _ _ (by intro o h; cases h)
    cases k <;> simpa [State.push, State.setPtr, this] using hs.mesh
  · cases k <;> simpa [State.push, State.setPtr] using hs.written
  · cases k <;> simp_all [State.push, State.setPtr, hs.regions]

theorem base_allocHelper {s : State} (hs : Base s) :
    Base (s.push (.alloc .helper s.trace.length)) :=
  base_alloc hs .helper rfl (by simp)

theorem base_freeHelper {s : State} (hs : Base s) (h : Nat) :
    Base (s.push (.free .helper h)) := by
  refine ⟨heap_freeHelper hs.heap h, noFail_snoc hs.noFail rfl, ?_, hs.written, hs.regions⟩
  show s.mesh = completedOnMesh (s.trace ++ [.free .helper h])
  rw [completedOnMesh_snoc_other, hs.mesh]
  intro o h; cases h

theorem heap_held_lt {s : State} (hs : Heap s) (k : Kind) (h : Nat) (hp : s.ptr k = some h) :
    h < s.trace.length := by
  have hk : k ≠ .helper := by
    intro hk; subst hk; cases hp
  have h1 := hs.bal k h hk
  rw [if_pos hp] at h1
  have h2 : 0 < s.trace.count (.alloc k h) := by omega
  exact hs.fresh k h (List.count_pos_iff.mp h2)

theorem heap_replaceSurface {s : State} (hs : Heap s) (h : Nat) (hp : s.surfacePtr = some h) :
    Heap (((s.setPtr .surface (some s.trace.length)).push
      (.alloc .surface s.trace.length)).push (.free .surface h)) := by
  have hlt : h < s.trace.length := heap_held_lt hs .surface h hp
  have h0 : ∀ k1, s.trace.count (.alloc k1 s.trace.length) = 0 := by
    intro k1
    rw [List.count_eq_zero]
    exact fun hm => Nat.lt_irrefl _ (hs.fresh k1 _ hm)
  have hbal := hs.bal .surface h (by simp)
  simp only [State.ptr, hp, if_true] at hbal
  refine ⟨?_, ?_, ?_, ?_, ?_⟩
  · intro k1 h1 hm
    simp only [trace_push, trace_setPtr, List.mem_append, List.mem_singleton,
      List.length_append, List.length_singleton] at hm ⊢
    rcases hm with (hm | hm) | hm
    · have := hs.fresh k1 h1 hm; omega
    · cases hm; omega
    · cases hm
  · intro k1 h1
    simp only [trace_push, trace_setPtr, List.count_append]
    by_cases hc : Event.alloc .surface s.trace.length = Event.alloc k1 h1
    · cases hc
      simp [h0 .surface]
    · have h1c : [Event.alloc Kind.surface s.trace.length].count (.alloc k1 h1) = 0 := by
        rw [List.count_eq_zero, List.mem_singleton]; exact fun h => hc h.symm
      have h2c : [Event.free Kind.surface h].count (.alloc k1 h1) = 0 := by
        rw [List.count_eq_zero, List.mem_singleton]; exact fun h => by cases h
      rw [h1c, h2c]
      exact hs.once k1 h1
  · intro k1 h1 hk1
    have hb := hs.bal k1 h1 hk1
    simp only [trace_push, trace_setPtr, List.count_append, ptr_push,
      ptr_setPtr _ _ _ _ hk1]
    by_cases hk : k1 = .surface
    · subst hk
      simp only [State.ptr, hp] at hb
      by_cases hn : h1 = s.trace.length
      · subst hn
        have : ¬ (h = s.trace.length) := by omega
        rw [count_single_ne (a := Event.free Kind.surface s.trace.length)
          (b := Event.free Kind.surface h) (by simp [this])]
        simp [this, h0 .surface] at hb ⊢
        omega
      · have hn2 : ¬ (s.trace.length = h1) := fun h => hn h.symm
        by_cases hh : h1 = h
        · subst hh
          simp [hn, hn2] at hb ⊢
          omega
        · have hh2 : ¬ (h = h1) := fun h => hh h.symm
          simp [hn, hn2, hh, hh2] at hb ⊢
          omega
    · have hk2 : ¬ (Kind.surface = k1) := fun h => hk h.symm
      simp [hk, hk2] at hb ⊢
      omega
  · have h1 := hs.oct
    simpa [nAlloc, nFree, Event.isAlloc, Event.isFree, State.push, State.setPtr,
      List.countP_append] using h1
  · refine always_snoc (always_snoc (by simpa using hs.disc) ?_) ?_
    · exact ⟨by simpa using h0 .surface, by intro h; cases h⟩
    · refine ⟨fun _ => ?_, by intro h; cases h⟩
      have : ¬ (s.trace.length = h) := by omega
      rw [trace_push, trace_setPtr, List.count_append, List.count_append,
        count_single_ne (a := Event.alloc Kind.surface h)
          (b := Event.alloc Kind.surface s.trace.length) (by simp [this]),
        count_single_ne (a := Event.free Kind.surface h)
          (b := Event.alloc Kind.surface s.trace.length) (by simp)]
      omega

theorem base_replaceSurface {s : State} (hs : Base s) (h : Nat) (hp : s.surfacePtr = some h) :
    Base (((s.setPtr .surface (some s.trace.length)).push
      (.alloc .surface s.trace.length)).push (.free .surface h)) := by
  refine ⟨heap_replaceSurface hs.heap h hp, ?_, ?_, hs.written, hs.regions⟩
  · exact noFail_snoc (noFail_snoc (by simpa using hs.noFail) rfl) rfl
  · show s.mesh = completedOnMesh ((s.trace ++ [.alloc .surface s.trace.length]) ++
      [.free .surface h])
    rw [completedOnMesh_snoc_other _ _ (by intro o h; cases h),
      completedOnMesh_snoc_other _ _ (by intro o h; cases h), hs.mesh]

/-! ## Weakest preconditions of the remaining primitives -/

@[simp] theorem wp_getState (Q : State → State → Prop) (E : Failure → State → Prop)
    (s : State) : wp getState Q E s ↔ Q s s := by
  simp [wp, getState]

@[simp] theorem wp_useSurface (Q : Nat → State → Prop) (E : Failure → State → Prop)
    (s : State) :
    wp useSurface Q E s ↔ ∃ h, s.surfacePtr = some h ∧ Q h (s.push (.deref .surface h)) := by
  simp only [wp, useSurface, State.push]
  cases h : s.surfacePtr <;> simp

@[simp] theorem wp_useModSurface (Q : Nat → State → Prop) (E : Failure → State → Prop)
    (s : State) :
    wp useModSurface Q E s ↔
      ∃ h, s.modSurfacePtr = some h ∧ Q h (s.push (.deref .modSurface h)) := by
  simp only [wp, useModSurface, State.push]
  cases h : s.modSurfacePtr <;> simp

theorem wp_deleteSurface (Q : Unit → State → Prop) (E : Failure → State → Prop) (s : State) :
    wp deleteSurface Q E s ↔
      (∀ h, s.surfacePtr = some h → Q () ((s.setPtr .surface none).push (.free .surface h))) ∧
      (s.surfacePtr = none → Q () s) := by
  simp only [wp, deleteSurface, State.push, State.setPtr]
  cases h : s.surfacePtr <;> simp

theorem wp_deleteModSurface (Q : Unit → State → Prop) (E : Failure → State → Prop)
    (s : State) :
    wp deleteModSurface Q E s ↔
      (∀ h, s.modSurfacePtr = some h →
        Q () ((s.setPtr .modSurface none).push (.free .modSurface h))) ∧
      (s.modSurfacePtr = none → Q () s) := by
  simp only [wp, deleteModSurface, State.push, State.setPtr]
  cases h : s.modSurfacePtr <;> simp

theorem wp_deleteOctree (Q : Unit → State → Prop) (E : Failure → State → Prop) (s : State) :
    wp deleteOctree Q E s ↔
      (∀ h, s.octreePtr = some h → Q () ((s.setPtr .octree none).push (.free .octree h))) ∧
      (s.octreePtr = none → Q () s) := by
  simp only [wp, deleteOctree, State.push, State.setPtr]
  cases h : s.octreePtr <;> simp

theorem wp_deletePointRegions (Q : Unit → State → Prop) (E : Failure → State → Prop)
    (s : State) :
    wp deletePointRegions Q E s ↔
      (∀ h, s.pointRegionsPtr = some h →
        Q () ((s.setPtr .pointRegions none).push (.free .pointRegions h))) ∧
      (s.pointRegionsPtr = none → Q () s) := by
  simp only [wp, deletePointRegions, State.push, State.setPtr]
  cases h : s.pointRegionsPtr <;> simp

@[simp] theorem wp_setSurfacePtr (h : Nat) (Q : Unit → State → Prop)
    (E : Failure → State → Prop) (s : State) :
    wp (setSurfacePtr h) Q E s ↔ Q () (s.setPtr .surface (some h)) := by
  simp [wp, setSurfacePtr, State.setPtr]

@[simp] theorem wp_setModSurfacePtr (h : Nat) (Q : Unit → State → Prop)
    (E : Failure → State → Prop) (s : State) :
    wp (setModSurfacePtr h) Q E s ↔ Q () (s.setPtr .modSurface (some h)) := by
  simp [wp, setModSurfacePtr, State.setPtr]

@[simp] theorem wp_setOctreePtr (h : Nat) (Q : Unit → State → Prop)
    (E : Failure → State → Prop) (s : State) :
    wp (setOctreePtr h) Q E s ↔ Q () (s.setPtr .octree (some h)) := by
  simp [wp, setOctreePtr, State.setPtr]

theorem wp_liftRead {α : Type} (r : Except Failure α) (Q : α → State → Prop)
    (E : Failure → State → Prop) (s : State) :
    wp (liftRead r) Q E s ↔
      (∀ a, r = .ok a → Q a s) ∧ (∀ f, r = .error f → E f (s.push (.raised none f))) := by
  cases r <;> simp [liftRead]

@[simp] theorem wp_runIf (c : Bool) (m : M Unit) (Q : Unit → State → Prop)
    (E : Failure → State → Prop) (s : State) :
    wp (runIf c m) Q E s ↔ (c = true → wp m Q E s) ∧ (c = false → Q () s) := by
  cases c <;> simp [runIf]

/-! ## Hoare rules -/

section rules
variable {α β : Type} {P Q R : State → Prop} {E : Failure → State → Prop}

theorem tr_bind {m : M α} {f : α → M β} (h1 : Tr P m Q E) (h2 : ∀ a, Tr Q (f a) R E) :
    Tr P (m >>= f) R E := by
  intro s hP
  rw [wp_bind]
  exact wp_mono (h1 s hP) (fun a s1 h => h2 a s1 h) (fun _ _ h => h)

theorem tr_pre {m : M α} {P2 : State → Prop} (h : Tr P m Q E) (hp : ∀ s, P2 s → P s) :
    Tr P2 m Q E := fun s hs => h s (hp s hs)

theorem tr_post {m : M α} {Q2 : State → Prop} (h : Tr P m Q E) (hq : ∀ s, Q s → Q2 s) :
    Tr P m Q2 E := fun s hs => wp_mono (h s hs) (fun _ s1 h1 => hq s1 h1) (fun _ _ h1 => h1)

theorem tr_ite (c : Prop) [Decidable c] {m1 m2 : M α} (h1 : Tr P m1 Q E) (h2 : Tr P m2 Q E) :
    Tr P (if c then m1 else m2) Q E := by
  split
  · exact h1
  · exact h2

theorem tr_pure (a : α) : Tr P (pure a : M α) P E := by
  intro s hP; simpa using hP

theorem tr_keeps {A : State → Prop} {m : M α} (h : Keeps A E m) : Tr A m A E := h

theorem tr_runIf (c : Bool) {m : M Unit} (h1 : Tr P m Q E) (h2 : ∀ s, P s → Q s) :
    Tr P (runIf c m) Q E := by
  intro s hP
  rw [wp_runIf]
  exact ⟨fun _ => h1 s hP, fun _ => h2 s hP⟩

end rules

section own
variable {α : Type} {a b c : Bool}

theorem isNote_of_isStageNote {e : Event} (h : e.isStageNote = true) : e.isNote = true := by
  cases e <;> simp_all [Event.isStageNote, Event.isNote]

theorem own_stable : Stable (Own a b c) BaseE where
  note := fun _ e h he => ⟨base_push_note h.base e (isNote_of_isStageNote he), h.surf, h.modSurf,
    h.octree⟩
  done := fun _ o h _ => ⟨base_done h.base o, h.surf, h.modSurf, h.octree⟩
  deref := fun _ x h hx => ⟨base_deref h.base .octree x hx, h.surf, h.modSurf, h.octree⟩
  helperNew := fun _ h => ⟨base_allocHelper h.base, h.surf, h.modSurf, h.octree⟩
  helperFree := fun _ x h => ⟨base_freeHelper h.base x, h.surf, h.modSurf, h.octree⟩
  failed := fun _ o f h _ => base_raised h.base (some o) f
  raised := fun _ f h => base_raised h.base none f

theorem base_stable : Stable Base BaseE where
  note := fun _ e h he => base_push_note h e (isNote_of_isStageNote he)
  done := fun _ o h _ => base_done h o
  deref := fun _ x h hx => base_deref h .octree x hx
  helperNew := fun _ h => base_allocHelper h
  helperFree := fun _ x h => base_freeHelper h x
  failed := fun _ o f h _ => base_raised h (some o) f
  raised := fun _ f h => base_raised h none f

theorem own_emit (e : Event) (he : e.isNote = true) :
    Tr (Own a b c) (emit e) (Own a b c) BaseE := by
  intro s h
  rw [wp_emit]
  exact ⟨base_push_note h.base e he, h.surf, h.modSurf, h.octree⟩

theorem own_call (env : Env) (o : Op) : Tr (Own a b c) (call env o) (Own a b c) BaseE := by
  intro s h
  rw [wp_call]
  exact ⟨fun f _ => base_raised h.base (some o) f, fun _ => ⟨base_done h.base o, h.surf, h.modSurf,
    h.octree⟩⟩

theorem own_liftRead (r : Except Failure α) :
    Tr (Own a b c) (liftRead r) (Own a b c) BaseE := by
  intro s h
  rw [wp_liftRead]
  exact ⟨fun _ _ => h, fun f _ => base_raised h.base none f⟩

theorem own_useOctree : Tr (Own a b true) useOctree (Own a b true) BaseE := by
  intro s h
  rw [wp_useOctree]
  obtain ⟨x, hx⟩ := Option.isSome_iff_exists.mp h.octree
  exact ⟨x, hx, base_deref h.base .octree x hx, h.surf, h.modSurf, h.octree⟩

theorem own_useSurface : Tr (Own true b c) useSurface (Own true b c) BaseE := by
  intro s h
  rw [wp_useSurface]
  obtain ⟨x, hx⟩ := Option.isSome_iff_exists.mp h.surf
  exact ⟨x, hx, base_deref h.base .surface x hx, h.surf, h.modSurf, h.octree⟩

theorem own_useModSurface : Tr (Own a true c) useModSurface (Own a true c) BaseE := by
  intro s h
  rw [wp_useModSurface]
  obtain ⟨x, hx⟩ := Option.isSome_iff_exists.mp h.modSurf
  exact ⟨x, hx, base_deref h.base .modSurface x hx, h.surf, h.modSurf, h.octree⟩

theorem own_deleteOctree : Tr (Own a b c) deleteOctree (Own a b false) BaseE := by
  intro s h
  rw [wp_deleteOctree]
  refine ⟨fun x hx => ⟨base_free h.base .octree x hx (by simp), h.surf, h.modSurf, rfl⟩, fun hx => ?_⟩
  exact ⟨h.base, h.surf, h.modSurf, by simp [hx]⟩

theorem own_deleteModSurface : Tr (Own a b c) deleteModSurface (Own a false c) BaseE := by
  intro s h
  rw [wp_deleteModSurface]
  refine ⟨fun x hx => ⟨base_free h.base .modSurface x hx (by simp), h.surf, rfl, h.octree⟩,
    fun hx => ?_⟩
  exact ⟨h.base, h.surf, by simp [hx], h.octree⟩

theorem own_newOctree {β : Type} {k : Unit → M β} {Q : State → Prop}
    (hk : Tr (Own a b true) (k ()) Q BaseE) :
    Tr (Own a b false) (alloc .octree >>= fun h => setOctreePtr h >>= k) Q BaseE := by
  intro s h
  simp only [wp_bind, wp_alloc, wp_setOctreePtr]
  refine hk _ ⟨base_alloc h.base .octree ?_ (by simp), h.surf, h.modSurf, rfl⟩
  simpa [State.ptr] using h.octree

theorem own_newModSurface {β : Type} {k : Unit → M β} {Q : State → Prop}
    (hk : Tr (Own a true c) (k ()) Q BaseE) :
    Tr (Own a false c) (alloc .modSurface >>= fun h => setModSurfacePtr h >>= k) Q BaseE := by
  intro s h
  simp only [wp_bind, wp_alloc, wp_setModSurfacePtr]
  refine hk _ ⟨base_alloc h.base .modSurface ?_ (by simp), h.surf, rfl, h.octree⟩
  simpa [State.ptr] using h.modSurf

theorem own_newSurface {β : Type} {k : Unit → M β} {Q : State → Prop}
    (hk : Tr (Own true b c) (k ()) Q BaseE) :
    Tr (Own false b c) (alloc .surface >>= fun h => setSurfacePtr h >>= k) Q BaseE := by
  intro s h
  simp only [wp_bind, wp_alloc, wp_setSurfacePtr]
  refine hk _ ⟨base_alloc h.base .surface ?_ (by simp), rfl, h.modSurf, h.octree⟩
  simpa [State.ptr] using h.surf

theorem own_replaceSurface {β : Type} {k : Unit → M β} {Q : State → Prop}
    (hk : Tr (Own true b c) (k ()) Q BaseE) :
    Tr (Own true b c)
      (alloc .surface >>= fun n => deleteSurface >>= fun _ => setSurfacePtr n >>= k) Q
      BaseE := by
  intro s h
  obtain ⟨x, hx⟩ := Option.isSome_iff_exists.mp h.surf
  simp only [wp_bind, wp_alloc, wp_deleteSurface, wp_setSurfacePtr]
  refine ⟨fun y hy => ?_, fun hy => ?_⟩
  · have hxy : y = x := by
      have : some y = some x := by rw [← hy, ← hx]; rfl
      exact Option.some.inj this
    subst hxy
    exact hk _ ⟨base_replaceSurface h.base y hx, rfl, h.modSurf, h.octree⟩
  · have : s.surfacePtr = none := hy
    rw [hx] at this
    cases this

end own

/-! ## Ownership pass over the member functions -/

section own
variable {a b c : Bool}

theorem own_revertTail {β : Type} (env : Env) (o : Op) {k : PUnit → M β} {Q : State → Prop}
    (hk : Tr (Own a false c) (k PUnit.unit) Q BaseE) :
    Tr (Own a b c)
      (getState >>= fun s0 =>
        if s0.modSurfacePtr.isSome = true then
          (call env o >>= fun _ => deleteModSurface >>= k)
        else (pure PUnit.unit >>= k)) Q BaseE := by
  intro s h
  simp only [wp_bind, wp_getState]
  split
  · exact (tr_bind (own_call env o) (fun _ => tr_bind own_deleteModSurface (fun _ => hk))) s h
  · rename_i hc
    have hb : b = false := by
      have := h.modSurf
      cases b
      · rfl
      · exact absurd this hc
    subst hb
    simpa using hk s h

theorem own_finalTail (env : Env) :
    Tr (Own true b false)
      (call env .optimizeMeshFV >>= fun _ =>
        call env .optimizeLowQualityFaces >>= fun _ =>
        call env .optimizeBoundaryLayer >>= fun _ =>
        call env .untangleMeshFV >>= fun _ =>
        call env .clearAddressingData >>= fun _ =>
        getState >>= fun s0 =>
          if s0.modSurfacePtr.isSome = true then
            (call env .revertGeometryModification >>= fun _ =>
              deleteModSurface >>= fun _ => emit (.leave .optimiseFinalMesh))
          else (pure PUnit.unit >>= fun _ => emit (.leave .optimiseFinalMesh)))
      (Own true false false) BaseE :=
  tr_bind (own_call env _) fun _ =>
  tr_bind (own_call env _) fun _ =>
  tr_bind (own_call env _) fun _ =>
  tr_bind (own_call env _) fun _ =>
  tr_bind (own_call env _) fun _ =>
  own_revertTail env _ (own_emit _ rfl)

theorem own_optimiseFinalMesh (env : Env) :
    Tr (Own true b true) (optimiseFinalMesh env) (Own true false false) BaseE := by
  unfold optimiseFinalMesh
  dsimp only
  refine tr_bind (own_emit _ rfl) fun _ => tr_bind (own_liftRead _) fun enf => ?_
  refine tr_bind own_useOctree fun _ => ?_
  cases enf
  · exact tr_bind (tr_pure _) fun _ => tr_bind own_useOctree fun _ =>
      tr_bind (own_call env _) fun _ =>
      tr_bind own_deleteOctree fun _ => tr_bind (tr_pure _) fun _ => own_finalTail env
  · exact tr_bind own_useOctree fun _ => tr_bind (own_call env _) fun _ =>
      tr_bind own_useOctree fun _ => tr_bind (own_call env _) fun _ =>
      tr_bind own_deleteOctree fun _ => tr_bind (own_call env _) fun _ => own_finalTail env

theorem own_projectSurfaceAfterBackScaling (env : Env) :
    Tr (Own true false false) (projectSurfaceAfterBackScaling env) (Own true false false)
      BaseE := by
  unfold projectSurfaceAfterBackScaling
  refine tr_bind (own_emit _ rfl) fun _ => tr_ite _ (own_emit _ rfl) ?_
  refine tr_bind own_deleteOctree fun _ => tr_bind own_useSurface fun surf => ?_
  refine tr_bind (own_call env _) fun _ => own_newOctree ?_
  exact tr_bind own_useOctree fun _ => tr_bind own_useOctree fun _ =>
    tr_bind (own_call env _) fun _ =>
    tr_bind own_useOctree fun _ => tr_bind own_useOctree fun _ =>
    tr_bind (own_call env _) fun _ =>
    tr_bind (own_optimiseFinalMesh env) fun _ => own_emit _ rfl

end own

/-! ## Structure of `generateMesh` -/

theorem M.bind_assoc {α β γ : Type} (m : M α) (f : α → M β) (g : β → M γ) :
    (m >>= f) >>= g = m >>= fun a => f a >>= g := by
  funext s
  simp only [bind_eq, M.bind]
  rcases m s with ⟨o, s1⟩
  cases o <;> rfl

theorem ite_bind_jp {β : Type} (c : Bool) (m : M Unit) (k : Unit → M β) :
    (if c = true then m >>= k else pure PUnit.unit >>= k) = runIf c m >>= k := by
  cases c <;> rfl

theorem ite_bind_jp2 {β : Type} (c : Bool) (m1 m2 : M Unit) (k : Unit → M β) :
    (if c = true then (m1 >>= fun _ => m2 >>= k) else pure PUnit.unit >>= k) =
      runIf c (m1 >>= fun _ => m2) >>= k := by
  cases c
  · rfl
  · simp only [runIf, if_true, M.bind_assoc]

theorem generateMesh_eq (env : Env) :
    generateMesh env =
      (emit (.enter .generateMesh) >>= fun _ =>
        stagesBeforeFinalisation env >>= fun _ =>
        runIf (env.runCurrentStep "meshOptimisation") (finalisation env) >>= fun _ =>
        afterFinalisation env) := by
  unfold generateMesh stagesBeforeFinalisation finalisation afterFinalisation
  simp only [ite_bind_jp, ite_bind_jp2, M.bind_assoc]

theorem runAll_cons (m : M Unit) (ms : List (M Unit)) :
    runAll (m :: ms) = m >>= fun _ => runAll ms := rfl

theorem pure_bind_unit {β : Type} (k : Unit → M β) : (pure () >>= k) = k () := rfl

theorem runIf_true (m : M Unit) : runIf true m = m := rfl

theorem runIf_false (m : M Unit) : runIf false m = pure () := rfl

theorem runAll_nil : runAll [] = pure () := rfl

theorem runAll_filter_cons (f : String → Bool) (n : String) (m : M Unit)
    (rest : List (String × M Unit)) :
    runAll ((((n, m) :: rest).filter (fun p => f p.1)).map (fun p => p.2)) =
      runIf (f n) m >>= fun _ => runAll ((rest.filter (fun p => f p.1)).map (fun p => p.2)) := by
  cases h : f n
  · simp only [List.filter, h, runIf_false, pure_bind_unit]
  · simp only [List.filter, h, List.map, runAll_cons, runIf_true]

theorem runAll_filter_nil (f : String → Bool) :
    runAll ((([] : List (String × M Unit)).filter (fun p => f p.1)).map (fun p => p.2)) =
      pure () := rfl

theorem generateMesh_eq_pipelineBySpec (env : Env) :
    generateMesh env = pipelineBySpec env := by
  rw [generateMesh_eq]
  unfold pipelineBySpec stageTable stagesBeforeFinalisation afterFinalisation
  simp only [runAll_filter_cons, runAll_filter_nil, M.bind_assoc, pure_bind_unit]

section stage
variable {A : State → Prop} {B : Failure → State → Prop}

theorem keeps_runIf (c : Bool) {m : M Unit} (h : Keeps A B m) : Keeps A B (runIf c m) := by
  cases c
  · exact keeps_pure ()
  · exact h

theorem stage_before (env : Env) (hS : Stable A B)
    (hO : ∀ s, A s → s.octreePtr.isSome = true) :
    Keeps A B (stagesBeforeFinalisation env) :=
  keeps_bind (keeps_runIf _ (stage_createVoronoiMesh env hS hO)) fun _ =>
  keeps_bind (keeps_runIf _ (stage_surfacePreparation env hS)) fun _ =>
  keeps_bind (keeps_runIf _ (stage_mapMeshToSurface env hS hO)) fun _ =>
  keeps_bind (keeps_runIf _ (stage_extractPatches env hS hO)) fun _ =>
  keeps_bind (keeps_runIf _ (keeps_bind (stage_mapEdgesAndCorners env hS hO) fun _ =>
    stage_optimiseMeshSurface env hS hO)) fun _ =>
  keeps_runIf _ (stage_generateBoudaryLayers env hS)

theorem stage_after (env : Env) (hS : Stable A B) : Keeps A B (afterFinalisation env) :=
  keeps_bind (keeps_runIf _ (stage_refBoundaryLayers env hS)) fun _ =>
  keeps_bind (stage_renumberMesh env hS) fun _ =>
  keeps_bind (stage_replaceBoundaries env hS) fun _ =>
  keeps_emit hS _ rfl

end stage

theorem own_finalisation (env : Env) (b : Bool) :
    Tr (Own true b true) (finalisation env) (Own true false false) BaseE :=
  tr_bind (own_optimiseFinalMesh env) fun _ => own_projectSurfaceAfterBackScaling env

theorem own_generateMesh (env : Env) (b : Bool) :
    Tr (Own true b true) (generateMesh env) Base BaseE := by
  rw [generateMesh_eq]
  refine tr_bind (own_emit _ rfl) fun _ => ?_
  refine tr_bind (tr_keeps (stage_before env own_stable (fun s h => h.octree))) fun _ => ?_
  refine tr_bind (tr_runIf _ (tr_post (own_finalisation env b) fun s h => h.base)
    fun s h => h.base) fun _ => ?_
  exact tr_keeps (stage_after env base_stable)

theorem own_guardedBody (env : Env) :
    Tr (Own false false false) (guardedBody env) Base BaseE := by
  unfold guardedBody
  dsimp only
  refine tr_bind (own_call env _) fun _ => tr_bind (own_liftRead _) fun surfaceFile => ?_
  refine tr_bind (own_call env _) fun _ => own_newSurface ?_
  refine tr_bind own_useSurface fun _ => tr_bind own_useSurface fun _ =>
    tr_bind (own_call env _) fun _ => ?_
  refine tr_bind (own_call env _) fun _ => tr_bind (own_call env _) fun _ => ?_
  refine tr_bind own_useSurface fun _ => ?_
  refine tr_ite _
    (tr_bind own_useSurface fun _ => tr_bind own_useSurface fun _ =>
      tr_bind (own_call env _) fun _ => own_replaceSurface ?_)
    (tr_bind (tr_pure _) fun _ => ?_)
  all_goals
    refine tr_ite _
      (tr_bind own_useSurface fun _ => tr_bind own_useSurface fun _ =>
        tr_bind (own_call env _) fun _ => own_newModSurface
        (tr_bind own_useModSurface fun _ => tr_bind (own_call env _) fun _ =>
          own_newOctree ?_))
      (tr_bind own_useSurface fun _ => tr_bind (own_call env _) fun _ => own_newOctree ?_)
  all_goals
    exact tr_bind own_useOctree fun _ => tr_bind own_useOctree fun _ =>
      tr_bind (own_call env _) fun _ => own_generateMesh env _

/-! ## Constructor and destructor -/

theorem heap_initial : Heap initial := by
  refine ⟨?_, ?_, ?_, ?_, always_nil _⟩
  · intro k h hm; simp [initial] at hm
  · intro k h; simp [initial]
  · intro k h; cases k <;> simp [initial, State.ptr]
  · simp [initial, nAlloc, nFree]

theorem own_initial : Own false false false initial :=
  ⟨⟨heap_initial, noFail_nil, rfl, rfl, rfl⟩, rfl, rfl, rfl⟩

theorem guardedBody_spec (env : Env) : wp (guardedBody env) (fun _ => Base) BaseE initial :=
  own_guardedBody env initial own_initial

/-- Everything the ownership pass establishes about the constructed object. -/
theorem construct_spec (env : Env) :
    (construct env).1 = .ok () ∧ Heap (construct env).2 ∧
      (construct env).2.mesh = completedOnMesh (construct env).2.trace ∧
      (construct env).2.written = none ∧ (construct env).2.pointRegionsPtr = none := by
  have h := guardedBody_spec env
  unfold wp at h
  unfold construct
  rcases hb : guardedBody env initial with ⟨o, s⟩
  rw [hb] at h
  cases o with
  | ok a => exact ⟨rfl, h.heap, h.mesh, h.written, h.regions⟩
  | threw f =>
    refine ⟨rfl, heap_push_neutral h.heap (.diagnostic (diagnosticOf f)) rfl, ?_, h.written,
      h.regions⟩
    show s.mesh = completedOnMesh (s.trace ++ [.diagnostic (diagnosticOf f)])
    rw [completedOnMesh_snoc_other _ _ (by intro o h; cases h), h.mesh]
  | fault => exact h.elim

theorem teardown_step (s0 s : State) (K : Kind → Bool) (k : Kind) (hD : Teardown s0 K s) :
    (∀ h, s.ptr k = some h →
      Teardown s0 (fun x => K x || decide (x = k)) ((s.setPtr k none).push (.free k h))) ∧
    (s.ptr k = none → Teardown s0 (fun x => K x || decide (x = k)) s) := by
  obtain ⟨hH, hK, r, hr⟩ := hD
  constructor
  · intro h hp
    refine ⟨heap_free hH k h hp, ?_, r ++ [.free k h], by simp [hr]⟩
    intro x hx
    by_cases hxh : x = .helper
    · subst hxh; cases k <;> rfl
    rw [ptr_push, ptr_setPtr _ _ _ _ hxh]
    by_cases hxk : x = k
    · simp [hxk]
    · simp only [hxk, decide_False, Bool.or_false, if_false] at hx ⊢
      exact hK x hx
  · intro hp
    refine ⟨hH, ?_, r, hr⟩
    intro x hx
    by_cases hxk : x = k
    · rw [hxk]; exact hp
    · simp only [hxk, decide_False, Bool.or_false] at hx
      exact hK x hx

theorem teardown_deleteSurface (s0 : State) (K : Kind → Bool) :
    Tr (Teardown s0 K) deleteSurface (Teardown s0 (fun x => K x || decide (x = .surface)))
      (fun _ _ => False) := by
  intro s h
  rw [wp_deleteSurface]
  exact teardown_step s0 s K .surface h

theorem teardown_deleteModSurface (s0 : State) (K : Kind → Bool) :
    Tr (Teardown s0 K) deleteModSurface
      (Teardown s0 (fun x => K x || decide (x = .modSurface))) (fun _ _ => False) := by
  intro s h
  rw [wp_deleteModSurface]
  exact teardown_step s0 s K .modSurface h

theorem teardown_deleteOctree (s0 : State) (K : Kind → Bool) :
    Tr (Teardown s0 K) deleteOctree (Teardown s0 (fun x => K x || decide (x = .octree)))
      (fun _ _ => False) := by
  intro s h
  rw [wp_deleteOctree]
  exact teardown_step s0 s K .octree h

theorem teardown_deletePointRegions (s0 : State) (K : Kind → Bool) :
    Tr (Teardown s0 K) deletePointRegions
      (Teardown s0 (fun x => K x || decide (x = .pointRegions))) (fun _ _ => False) := by
  intro s h
  rw [wp_deletePointRegions]
  exact teardown_step s0 s K .pointRegions h

theorem destruct_spec (s : State) (hs : Heap s) :
    (destruct s).1 = .ok () ∧ Heap (destruct s).2 ∧ (∀ k, (destruct s).2.ptr k = none) ∧
      ∃ rest, (destruct s).2.trace = s.trace ++ rest := by
  have key := (tr_bind (teardown_deleteSurface s (fun _ => false)) fun _ =>
    tr_bind (teardown_deleteModSurface s _) fun _ =>
    tr_bind (teardown_deleteOctree s _) fun _ => teardown_deletePointRegions s _) s
      (And.intro hs (And.intro (fun _ hk => Bool.noConfusion hk)
        ⟨[], (List.append_nil _).symm⟩))
  change wp destruct _ _ s at key
  unfold wp at key
  rcases hd : destruct s with ⟨o, s1⟩
  rw [hd] at key
  cases o with
  | ok a =>
    obtain ⟨h1, h2, h3⟩ := key
    refine ⟨rfl, h1, fun k => ?_, h3⟩
    cases k
    case helper => rfl
    all_goals exact h2 _ rfl
  | threw f => exact key.elim
  | fault => exact key.elim

/-! ## Claims on ownership and failure -/

theorem single_index_bounds {t : List Event} (h : Always Disciplined t) :
    nFree .octree t ≤ nAlloc .octree t ∧ nAlloc .octree t ≤ nFree .octree t + 1 := by
  induction t using List.reverseRecOn with
  | nil => simp [nAlloc, nFree]
  | append_singleton t e ih =>
    have ih2 := ih (always_left h)
    have he : Disciplined t e := h t e [] rfl
    rw [nAlloc_append, nFree_append]
    cases e with
    | alloc k x =>
      by_cases hk : k = .octree
      · have := he.2 hk
        subst hk
        simp [nAlloc, nFree, Event.isAlloc, Event.isFree] at *
        omega
      · simp [nAlloc, nFree, Event.isAlloc, Event.isFree, hk] at *
        omega
    | free k x =>
      by_cases hk : k = .octree
      · have := he.2 hk
        subst hk
        simp [nAlloc, nFree, Event.isAlloc, Event.isFree] at *
        omega
      · simp [nAlloc, nFree, Event.isAlloc, Event.isFree, hk] at *
        omega
    | _ =>
      simp [nAlloc, nFree, Event.isAlloc, Event.isFree] at *
      omega

theorem lifetime_heap (env : Env) :
    (destruct (construct env).2).1 = .ok () ∧ Heap (destruct (construct env).2).2 ∧
      ∀ k, (destruct (construct env).2).2.ptr k = none := by
  obtain ⟨h1, h2, h3, _⟩ := destruct_spec (construct env).2 (construct_spec env).2.1
  exact ⟨h1, h2, h3⟩

/-- C3: after the constructor followed by the destructor, both of which return
normally, every object owned through a pointer member (loaded surface,
patch-annotated surface, modified surface, every spatial index) has been
released exactly as many times as it was created, each handle is created at
most once (so: created objects are released exactly once, nothing is released
twice, nothing is leaked), and every release of such an object hits an object
that is live at that moment. -/
theorem release_exactly_once (env : Env) :
    (construct env).1 = .ok () ∧ (destruct (construct env).2).1 = .ok () ∧
    (∀ k h, k ≠ .helper →
      (destruct (construct env).2).2.trace.count (.free k h) =
        (destruct (construct env).2).2.trace.count (.alloc k h) ∧
      (destruct (construct env).2).2.trace.count (.alloc k h) ≤ 1) ∧
    (∀ pre k h post, k ≠ .helper →
      (destruct (construct env).2).2.trace = pre ++ .free k h :: post →
        pre.count (.alloc k h) = pre.count (.free k h) + 1) := by
  obtain ⟨h1, h2, h3⟩ := lifetime_heap env
  refine ⟨(construct_spec env).1, h1, fun k h hk => ⟨?_, h2.once k h⟩, ?_⟩
  · have := h2.bal k h hk
    rw [h3 k] at this
    simpa using this.symm
  · intro pre k h post hk heq
    exact (h2.disc pre _ post heq).1 hk

/-- C4: at every point of construction and teardown (every prefix of the
trace) at most one spatial index is live, and whenever a spatial index is
constructed no spatial index is live, the previously held one having been
released. -/
theorem single_live_index (env : Env) :
    (∀ n, nAlloc .octree ((destruct (construct env).2).2.trace.take n) ≤
        nFree .octree ((destruct (construct env).2).2.trace.take n) + 1) ∧
    (∀ pre h post, (destruct (construct env).2).2.trace = pre ++ .alloc .octree h :: post →
        nAlloc .octree pre = nFree .octree pre) := by
  obtain ⟨_, h2, _⟩ := lifetime_heap env
  constructor
  · intro n
    have : Always Disciplined ((destruct (construct env).2).2.trace.take n) := by
      have h3 := h2.disc
      rw [← List.take_append_drop n (destruct (construct env).2).2.trace] at h3
      exact always_left h3
    exact (single_index_bounds this).2
  · intro pre h post heq
    exact (h2.disc pre _ post heq).2 rfl

/-- C10: construction never dereferences a null spatial-index pointer, for
every controller decision function, and every dereference of the spatial
index during construction hits an index that is live at that moment (created
and not yet released). -/
theorem no_use_of_disposed_index (env : Env) :
    (construct env).1 = .ok () ∧
    (∀ pre h post, (construct env).2.trace = pre ++ .deref .octree h :: post →
        pre.count (.alloc .octree h) = pre.count (.free .octree h) + 1) := by
  refine ⟨(construct_spec env).1, ?_⟩
  intro pre h post heq
  exact (construct_spec env).2.1.disc pre _ post heq (by simp)

/-- C1 (as stated, refuted): with `morphMesh` failing, the constructor returns
with a mesh that still carries the metadata attachment and the completed
tessellation, and `writeMesh` would write exactly that partial mesh. -/
theorem mesh_survives_failure :
    guardedBody envMorphFails initial =
        (.threw (.descriptive "morphing failed"), (guardedBody envMorphFails initial).2) ∧
      (construct envMorphFails).2.mesh = [.addSurfaceFile, .addSurfaceMeta, .createMesh] ∧
      (construct envMorphFails).2.mesh ≠ [] ∧
      (writeMesh (construct envMorphFails).2).written ≠ some [] := by
  refine ⟨rfl, rfl, by decide, by decide⟩

/-- C1 (amended): the constructor itself writes nothing to the output context,
whatever fails; the mesh it leaves is not rolled back but holds exactly the
operations on the mesh that completed (metadata attachment and completed stage
operations), and that is what a later `writeMesh` writes. -/
theorem construct_writes_nothing (env : Env) :
    (construct env).2.written = none ∧
      (construct env).2.mesh = completedOnMesh (construct env).2.trace ∧
      (writeMesh (construct env).2).written = some (completedOnMesh (construct env).2.trace) := by
  obtain ⟨_, _, h3, h4, _⟩ := construct_spec env
  refine ⟨h4, h3, ?_⟩
  show some (construct env).2.mesh = _
  rw [h3]

/-- C2: when an operation inside the guarded body raises `f`, the constructor
returns normally; the raise of `f` is the last event of the body and the only
failure reported in it (no stage and no tail operation runs afterwards); the
handler adds exactly one diagnostic and changes nothing else; a descriptive
failure prints its own message, any other failure the generic warning. -/
theorem failure_boundary (env : Env) (f : Failure) (s : State)
    (h : guardedBody env initial = (.threw f, s)) :
    construct env = (.ok (), { s with trace := s.trace ++ [.diagnostic (diagnosticOf f)] }) ∧
      (∃ pre src, s.trace = pre ++ [.raised src f] ∧ NoFail pre) ∧
      (∀ m, diagnosticOf (.descriptive m) = .message m) ∧
      (∀ w, diagnosticOf (.other w) = .warning "Meshing process terminated!") := by
  have hs := guardedBody_spec env
  unfold wp at hs
  rw [h] at hs
  refine ⟨?_, hs.ends, fun _ => rfl, fun _ => rfl⟩
  unfold construct
  rw [h]

/-- Instance of C2 at the run in which `morphMesh` fails. -/
theorem failure_boundary_witness :
    guardedBody envMorphFails initial =
        (.threw (.descriptive "morphing failed"), (guardedBody envMorphFails initial).2) ∧
      (construct envMorphFails =
          (.ok (), { (guardedBody envMorphFails initial).2 with
            trace := (guardedBody envMorphFails initial).2.trace ++
              [.diagnostic (diagnosticOf (.descriptive "morphing failed"))] }) ∧
        (∃ pre src, (guardedBody envMorphFails initial).2.trace =
          pre ++ [.raised src (.descriptive "morphing failed")] ∧ NoFail pre) ∧
        (∀ m, diagnosticOf (.descriptive m) = .message m) ∧
        (∀ w, diagnosticOf (.other w) = .warning "Meshing process terminated!")) :=
  ⟨rfl, failure_boundary envMorphFails _ _ rfl⟩

/-! ## Claims on the stage sequence and the boundary-layer stage -/

theorem resumeFrom_filter (env : Env) (k : Nat) :
    (stageTable env).filter (fun p => resumeFrom k p.1) = (stageTable env).drop k := by
  rcases k with _ | _ | _ | _ | _ | _ | _ | _ | k
  · rfl
  · rfl
  · rfl
  · rfl
  · rfl
  · rfl
  · rfl
  · rfl
  · have hf : ∀ name, resumeFrom (k + 8) name = false := by
      intro name
      unfold resumeFrom
      rw [decide_eq_false_iff_not]
      intro h
      have : stageNames.length = 8 := rfl
      omega
    simp [stageTable, hf]

/-- C5: `generateMesh` is the stage sequence of the spec: it runs, in the fixed
order, the bodies of exactly the stages the controller enables, each in full,
then `renumberMesh`, then `replaceBoundaries`; the stage table lists the eight
names in the fixed order; and under a resume policy the enabled stages are
exactly the ones from the resume point on (positions counted from 0). -/
theorem stage_order (env : Env) :
    generateMesh env = pipelineBySpec env ∧
      (stageTable env).map Prod.fst = stageNames ∧
      ∀ k, (stageTable env).filter (fun p => resumeFrom k p.1) = (stageTable env).drop k :=
  ⟨generateMesh_eq_pipelineBySpec env, rfl, resumeFrom_filter env⟩

/-- C6: when the `boundaryLayers` section holds `nLayers` with a positive value,
`generateBoudaryLayers` invokes `addLayerForAllPatches` exactly once (the call
either completes or raises) and invokes nothing else, in particular no
per-patch layer operation, whatever else the section contains. -/
theorem boundary_layers_first_match (env : Env) (s : State) (b : Dict) (n : Int)
    (hb : env.meshDict.lookup "boundaryLayers" = some (.dict b))
    (hn : b.lookup "nLayers" = some (.label n)) (hpos : n > 0) :
    (env.fails (s.trace.length + 1) .addLayerForAllPatches = none ∧
      generateBoudaryLayers env s =
        (.ok (), (((s.push (.enter .generateBoudaryLayers)).done .addLayerForAllPatches).push
          (.leave .generateBoudaryLayers)))) ∨
    (∃ f, env.fails (s.trace.length + 1) .addLayerForAllPatches = some f ∧
      generateBoudaryLayers env s =
        (.threw f, ((s.push (.enter .generateBoudaryLayers)).push
          (.raised (some .addLayerForAllPatches) f)))) := by
  unfold generateBoudaryLayers
  simp only [bind_eq, M.bind, emit, Dict.found, hb, Option.isSome_some, if_true, liftRead,
    Dict.subDict, Dict.readIfPresentLabel, hn, M.pure, hpos, call, List.length_append,
    List.length_singleton]
  cases hf : env.fails (s.trace.length + 1) .addLayerForAllPatches with
  | none => left; simp [State.push, State.done]
  | some f => right; exact ⟨f, rfl, by simp [State.push]⟩

/-- Instance of C6 for a section holding `nLayers 3` and `patchBoundaryLayers`. -/
theorem boundary_layers_first_match_witness :
    (envLayers 3).meshDict.lookup "boundaryLayers" = some (.dict (layersSection 3)) ∧
      (layersSection 3).lookup "nLayers" = some (.label 3) ∧ (3 : Int) > 0 ∧
      (((envLayers 3).fails (initial.trace.length + 1) .addLayerForAllPatches = none ∧
          generateBoudaryLayers (envLayers 3) initial =
            (.ok (), (((initial.push (.enter .generateBoudaryLayers)).done
              .addLayerForAllPatches).push (.leave .generateBoudaryLayers)))) ∨
        (∃ f, (envLayers 3).fails (initial.trace.length + 1) .addLayerForAllPatches = some f ∧
          generateBoudaryLayers (envLayers 3) initial =
            (.threw f, ((initial.push (.enter .generateBoudaryLayers)).push
              (.raised (some .addLayerForAllPatches) f))))) :=
  ⟨rfl, rfl, by decide,
    boundary_layers_first_match (envLayers 3) initial (layersSection 3) 3 rfl rfl (by decide)⟩

/-- When the key `boundaryLayers` is present but its entry is not a section,
`generateBoudaryLayers` passes the test `found` and `subDict` raises the
dictionary read error: the function does not return, no layer operation is
invoked and the mesh is unchanged. -/
theorem boundary_layers_not_section_raises (env : Env) (s : State)
    (hf : env.meshDict.found "boundaryLayers" = true)
    (hd : env.meshDict.isDict "boundaryLayers" = false) :
    generateBoudaryLayers env s =
        (.threw fatalRead, (s.push (.enter .generateBoudaryLayers)).push
          (.raised none fatalRead)) ∧
      (generateBoudaryLayers env s).2.mesh = s.mesh := by
  have key : generateBoudaryLayers env s =
      (.threw fatalRead, (s.push (.enter .generateBoudaryLayers)).push
        (.raised none fatalRead)) := by
    unfold generateBoudaryLayers
    cases hl : env.meshDict.lookup "boundaryLayers" with
    | none => simp [Dict.found, hl] at hf
    | some e =>
      cases e with
      | dict b => simp [Dict.isDict, hl] at hd
      | label n =>
        simp [bind_eq, M.bind, emit, Dict.found, hl, liftRead, Dict.subDict, raise,
          State.push]
      | bool b =>
        simp [bind_eq, M.bind, emit, Dict.found, hl, liftRead, Dict.subDict, raise,
          State.push]
      | word w =>
        simp [bind_eq, M.bind, emit, Dict.found, hl, liftRead, Dict.subDict, raise,
          State.push]
  exact ⟨key, by rw [key]; rfl⟩

/-- C7, the claim as worded fails in case (b): in `envLayersNotSection` the key
`boundaryLayers` exists and holds neither `nLayers` nor `patchBoundaryLayers`
(its entry is a label, not a section), yet `generateBoudaryLayers` does not
return normally: the test `found` passes, `subDict` raises right after the
entry of the function, and the constructor prints the generic warning. -/
theorem boundary_layers_key_not_section :
    (envLayersNotSection.meshDict.found "boundaryLayers" = true ∧
      envLayersNotSection.meshDict.lookup "boundaryLayers" = some (.label 3) ∧
      envLayersNotSection.meshDict.isDict "boundaryLayers" = false) ∧
    generateBoudaryLayers envLayersNotSection initial =
      (.threw fatalRead, (initial.push (.enter .generateBoudaryLayers)).push
        (.raised none fatalRead)) ∧
    (generateBoudaryLayers envLayersNotSection initial).1 ≠ .ok () ∧
    Event.raised none fatalRead ∈ (construct envLayersNotSection).2.trace ∧
    Event.diagnostic (.warning "Meshing process terminated!") ∈
      (construct envLayersNotSection).2.trace :=
  ⟨⟨rfl, rfl, rfl⟩, rfl, fun h => Outcome.noConfusion h, by decide, by decide⟩

/-- C7, amended: when there is no `boundaryLayers` key, or `boundaryLayers` is
a section (a sub-dictionary) that holds neither `nLayers` nor
`patchBoundaryLayers`, or it is a section that holds `nLayers` with a value
that is not positive (whatever else it holds), `generateBoudaryLayers` returns
normally having only entered and left: it invokes no operation, raises
nothing, and leaves the mesh and every other member unchanged. -/
theorem boundary_layers_noop (env : Env) (s : State)
    (h : env.meshDict.found "boundaryLayers" = false ∨
      (∃ b : Dict, env.meshDict.lookup "boundaryLayers" = some (.dict b) ∧
        b.found "nLayers" = false ∧ b.found "patchBoundaryLayers" = false) ∨
      (∃ (b : Dict) (n : Int), env.meshDict.lookup "boundaryLayers" = some (.dict b) ∧
        b.lookup "nLayers" = some (.label n) ∧ n ≤ 0)) :
    generateBoudaryLayers env s =
        (.ok (), (s.push (.enter .generateBoudaryLayers)).push
          (.leave .generateBoudaryLayers)) ∧
      (generateBoudaryLayers env s).2.mesh = s.mesh := by
  have key : generateBoudaryLayers env s =
      (.ok (), (s.push (.enter .generateBoudaryLayers)).push
        (.leave .generateBoudaryLayers)) := by
    unfold generateBoudaryLayers
    rcases h with h | ⟨b, hb, h1, h2⟩ | ⟨b, n, hb, hn, hle⟩
    · simp [bind_eq, M.bind, emit, h, pure_eq, M.pure, State.push]
    · have h1n : b.lookup "nLayers" = none := by
        simpa [Dict.found] using h1
      have h2n : b.lookup "patchBoundaryLayers" = none := by
        simpa [Dict.found] using h2
      simp [bind_eq, M.bind, emit, Dict.found, hb, liftRead, Dict.subDict,
        Dict.readIfPresentLabel, h1n, h2n, pure_eq, M.pure, State.push]
    · have hnot : ¬ (n > 0) := by omega
      simp [bind_eq, M.bind, emit, Dict.found, hb, liftRead, Dict.subDict,
        Dict.readIfPresentLabel, hn, pure_eq, M.pure, State.push, hnot]
  exact ⟨key, by rw [key]; rfl⟩

/-- Instance of C7 for a section holding `nLayers 0` and `patchBoundaryLayers`. -/
theorem boundary_layers_noop_witness :
    ((envLayers 0).meshDict.found "boundaryLayers" = false ∨
      (∃ b : Dict, (envLayers 0).meshDict.lookup "boundaryLayers" = some (.dict b) ∧
        b.found "nLayers" = false ∧ b.found "patchBoundaryLayers" = false) ∨
      (∃ (b : Dict) (n : Int), (envLayers 0).meshDict.lookup "boundaryLayers" = some (.dict b) ∧
        b.lookup "nLayers" = some (.label n) ∧ n ≤ 0)) ∧
    (generateBoudaryLayers (envLayers 0) initial =
        (.ok (), (initial.push (.enter .generateBoudaryLayers)).push
          (.leave .generateBoudaryLayers)) ∧
      (generateBoudaryLayers (envLayers 0) initial).2.mesh = initial.mesh) :=
  ⟨Or.inr (Or.inr ⟨layersSection 0, 0, rfl, rfl, by decide⟩),
    boundary_layers_noop (envLayers 0) initial
      (Or.inr (Or.inr ⟨layersSection 0, 0, rfl, rfl, by decide⟩))⟩

/-- Instance of C4 at the construction of the index in the run in which
`morphMesh` fails. -/
theorem single_live_index_witness :
    (destruct (construct envMorphFails).2).2.trace =
        (destruct (construct envMorphFails).2).2.trace.take 11 ++
          .alloc .octree 11 :: (destruct (construct envMorphFails).2).2.trace.drop 12 ∧
      nAlloc .octree ((destruct (construct envMorphFails).2).2.trace.take 11) =
        nFree .octree ((destruct (construct envMorphFails).2).2.trace.take 11) :=
  ⟨by decide, (single_live_index envMorphFails).2 _ 11
    ((destruct (construct envMorphFails).2).2.trace.drop 12) (by decide)⟩

/-- Instance of C10 at the first dereference of the index in the run in which
`morphMesh` fails. -/
theorem no_use_of_disposed_index_witness :
    (construct envMorphFails).2.trace =
        (construct envMorphFails).2.trace.take 12 ++
          .deref .octree 11 :: (construct envMorphFails).2.trace.drop 13 ∧
      ((construct envMorphFails).2.trace.take 12).count (.alloc .octree 11) =
        ((construct envMorphFails).2.trace.take 12).count (.free .octree 11) + 1 :=
  ⟨by decide, (no_use_of_disposed_index envMorphFails).2 _ 11
    ((construct envMorphFails).2.trace.drop 13) (by decide)⟩

/-- The helper objects that the stage functions create with `new` (`cmPtr`,
`msePtr`) are locals, not owned through a pointer member: when `morphMesh`
raises, the `deleteDemandDrivenData(cmPtr)` that follows it is not reached and
the destructor does not know the object. -/
theorem helper_not_released_when_morphMesh_fails :
    (destruct (construct envMorphFails).2).2.trace.count (.alloc .helper 22) = 1 ∧
      (destruct (construct envMorphFails).2).2.trace.count (.free .helper 22) = 0 := by
  decide

/-- Instance of C3 at the release of the index by the destructor in the run in
which `morphMesh` fails. -/
theorem release_exactly_once_witness :
    (Kind.octree ≠ Kind.helper ∧
      (destruct (construct envMorphFails).2).2.trace =
        (destruct (construct envMorphFails).2).2.trace.take 26 ++
          .free .octree 11 :: (destruct (construct envMorphFails).2).2.trace.drop 27) ∧
    ((destruct (construct envMorphFails).2).2.trace.count (.free .octree 11) =
        (destruct (construct envMorphFails).2).2.trace.count (.alloc .octree 11) ∧
      (destruct (construct envMorphFails).2).2.trace.count (.alloc .octree 11) ≤ 1) ∧
    ((destruct (construct envMorphFails).2).2.trace.take 26).count (.alloc .octree 11) =
      ((destruct (construct envMorphFails).2).2.trace.take 26).count (.free .octree 11) + 1 :=
  ⟨⟨by decide, by decide⟩,
    (release_exactly_once envMorphFails).2.2.1 .octree 11 (by decide),
    (release_exactly_once envMorphFails).2.2.2 _ .octree 11
      ((destruct (construct envMorphFails).2).2.trace.drop 27) (by decide) (by decide)⟩

/-! ## The counting pass -/

theorem tally_snoc (t : List Event) (e : Event) : tally (t ++ [e]) = (tally t).bump e := by
  simp [tally, Tally.bump, List.count_append, List.countP_append, nFree]

theorem bump_raised (c : Tally) (src : Option Op) (f : Failure) :
    c.bump (.raised src f) = c.failAt src := by
  cases src <;>
    simp [Tally.failAt, Tally.bump, tally, Event.invokes, nFree, Event.isFree,
      List.countP_cons, List.countP_nil]

theorem bump_free_mod (c : Tally) (h : Nat) :
    c.bump (.free .modSurface h) = c.bump (.free .modSurface 0) := by
  simp [Tally.bump, tally, Event.invokes, nFree, Event.isFree]

theorem bump_of_zero {c : Tally} {e : Event} (h : tally [e] = Tally.zero) : c.bump e = c := by
  simp [Tally.bump, h, Tally.zero]

theorem tally_stageNote {e : Event} (h : e.isStageNote = true) : tally [e] = Tally.zero := by
  cases e with
  | enter fn => cases fn <;> simp_all [Event.isStageNote, Fn.isStageFn] <;> rfl
  | leave fn => cases fn <;> simp_all [Event.isStageNote, Fn.isStageFn] <;> rfl
  | info m => rfl
  | _ => simp [Event.isStageNote] at h

theorem tally_stageCall {o : Op} (h : o.isStageOp = true) : tally [.call o] = Tally.zero := by
  cases o <;> simp_all [Op.isStageOp] <;> rfl

theorem tally_stageRaised {o : Op} (h : o.isStageOp = true) (f : Failure) :
    tally [.raised (some o) f] = Tally.zero := by
  cases o <;> simp_all [Op.isStageOp] <;> rfl

theorem tally_raisedNone (f : Failure) : tally [.raised none f] = Tally.zero := rfl

theorem tally_deref (k : Kind) (h : Nat) : tally [.deref k h] = Tally.zero := rfl

theorem tally_alloc (k : Kind) (h : Nat) : tally [.alloc k h] = Tally.zero := rfl

theorem orderedAt_stageNote (c : Tally) {e : Event} (h : e.isStageNote = true) :
    OrderedAt c e = true := by
  cases e <;> simp_all [Event.isStageNote, OrderedAt]

theorem orderedAt_note (c : Tally) {e : Event} (h : e.isNote = true) :
    OrderedAt c e = true := by
  cases e <;> simp_all [Event.isNote, OrderedAt]

theorem orderedAt_stageCall (c : Tally) {o : Op} (h : o.isStageOp = true) :
    OrderedAt c (.call o) = true := by
  cases o <;> simp_all [Op.isStageOp, OrderedAt]

theorem counted_step {c : Tally} {fs fm fo fs2 fm2 fo2 : Bool} {s s2 : State} {e : Event}
    (h : Counted c fs fm fo s) (ht : s2.trace = s.trace ++ [e]) (ho : OrderedAt c e = true)
    (h1 : s2.surfacePtr.isSome = fs2) (h2 : s2.modSurfacePtr.isSome = fm2)
    (h3 : s2.octreePtr.isSome = fo2) : Counted (c.bump e) fs2 fm2 fo2 s2 := by
  refine ⟨by rw [ht, tally_snoc, h.tally], ?_, h1, h2, h3⟩
  rw [ht]
  refine always_snoc h.order ?_
  show OrderedAt (tally s.trace) e = true
  rw [h.tally]
  exact ho

theorem counted_failed {c : Tally} {fs fm fo : Bool} {s : State} (a : Bool)
    (h : Counted c fs fm fo s) (src : Option Op) (f : Failure)
    (hok : (c.failAt src).ok a = true) : CountedE a f (s.push (.raised src f)) := by
  refine ⟨?_, always_snoc h.order rfl⟩
  rw [trace_push, tally_snoc, h.tally, bump_raised]
  exact hok

section counted
variable {α : Type} {a : Bool} {c : Tally} {fs fm fo : Bool}

theorem counted_same {s s2 : State} {e : Event} (h : Counted c fs fm fo s)
    (ht : s2.trace = s.trace ++ [e]) (hz : tally [e] = Tally.zero)
    (ho : OrderedAt c e = true) {fs2 fm2 fo2 : Bool}
    (h1 : s2.surfacePtr.isSome = fs2) (h2 : s2.modSurfacePtr.isSome = fm2)
    (h3 : s2.octreePtr.isSome = fo2) : Counted c fs2 fm2 fo2 s2 := by
  have := counted_step h ht ho h1 h2 h3
  rwa [bump_of_zero hz] at this

theorem counted_cast {c2 : Tally} (hc : c = c2) {s : State} (h : Counted c fs fm fo s) :
    Counted c2 fs fm fo s := hc ▸ h

theorem counted_stable (hok : c.ok a = true) : Stable (Counted c fs fm fo) (CountedE a) where
  note := fun _ e h he =>
    counted_same h rfl (tally_stageNote he) (orderedAt_stageNote c he) h.surf h.modSurf h.octree
  done := fun _ o h ho =>
    counted_same h rfl (tally_stageCall ho) (orderedAt_stageCall c ho) h.surf h.modSurf h.octree
  deref := fun _ x h _ =>
    counted_same h rfl (tally_deref .octree x) rfl h.surf h.modSurf h.octree
  helperNew := fun _ h =>
    counted_same h rfl (tally_alloc _ _) rfl h.surf h.modSurf h.octree
  helperFree := fun _ x h =>
    counted_same h (e := .free .helper x) rfl rfl rfl h.surf h.modSurf h.octree
  failed := fun _ o f h ho => by
    refine counted_failed a h (some o) f ?_
    rw [← bump_raised c (some o) f, bump_of_zero (tally_stageRaised ho f)]
    exact hok
  raised := fun _ f h => by
    refine counted_failed a h none f ?_
    rw [← bump_raised c none f, bump_of_zero (tally_raisedNone f)]
    exact hok

theorem counted_emit (e : Event) (he : e.isNote = true) :
    Tr (Counted c fs fm fo) (emit e) (Counted (c.bump e) fs fm fo) (CountedE a) := by
  intro s h
  rw [wp_emit]
  exact counted_step h rfl (orderedAt_note c he) h.surf h.modSurf h.octree

theorem counted_call (env : Env) (o : Op) (ho : OrderedAt c (.call o) = true)
    (hf : (c.failAt (some o)).ok a = true) :
    Tr (Counted c fs fm fo) (call env o) (Counted (c.bump (.call o)) fs fm fo)
      (CountedE a) := by
  intro s h
  rw [wp_call]
  exact ⟨fun f _ => counted_failed a h (some o) f hf,
    fun _ => counted_step h rfl ho h.surf h.modSurf h.octree⟩

theorem counted_liftRead (r : Except Failure α) (hf : (c.failAt none).ok a = true) :
    Tr (Counted c fs fm fo) (liftRead r) (Counted c fs fm fo) (CountedE a) := by
  intro s h
  rw [wp_liftRead]
  exact ⟨fun _ _ => h, fun f _ => counted_failed a h none f hf⟩

theorem counted_useOctree :
    Tr (Counted c fs fm true) useOctree (Counted c fs fm true) (CountedE a) := by
  intro s h
  rw [wp_useOctree]
  obtain ⟨x, hx⟩ := Option.isSome_iff_exists.mp h.octree
  exact ⟨x, hx, counted_same h rfl (tally_deref _ _) rfl h.surf h.modSurf h.octree⟩

theorem counted_useSurface :
    Tr (Counted c true fm fo) useSurface (Counted c true fm fo) (CountedE a) := by
  intro s h
  rw [wp_useSurface]
  obtain ⟨x, hx⟩ := Option.isSome_iff_exists.mp h.surf
  exact ⟨x, hx, counted_same h rfl (tally_deref _ _) rfl h.surf h.modSurf h.octree⟩

theorem counted_useModSurface :
    Tr (Counted c fs true fo) useModSurface (Counted c fs true fo) (CountedE a) := by
  intro s h
  rw [wp_useModSurface]
  obtain ⟨x, hx⟩ := Option.isSome_iff_exists.mp h.modSurf
  exact ⟨x, hx, counted_same h rfl (tally_deref _ _) rfl h.surf h.modSurf h.octree⟩

theorem counted_deleteOctree :
    Tr (Counted c fs fm fo) deleteOctree (Counted c fs fm false) (CountedE a) := by
  intro s h
  rw [wp_deleteOctree]
  refine ⟨fun x _ => counted_same h (e := .free .octree x) (by simp) rfl rfl h.surf h.modSurf
    rfl, fun hx => ⟨h.tally, h.order, h.surf, h.modSurf, by simp [hx]⟩⟩

theorem counted_deleteModSurface (ho : OrderedAt c (.free .modSurface 0) = true) :
    Tr (Counted c fs true fo) deleteModSurface (Counted (c.bump (.free .modSurface 0)) fs false fo)
      (CountedE a) := by
  intro s h
  rw [wp_deleteModSurface]
  refine ⟨fun x _ => ?_, fun hx => ?_⟩
  · rw [← bump_free_mod c x]
    exact counted_step h (e := .free .modSurface x) (by simp) ho h.surf rfl h.octree
  · have := h.modSurf
    rw [hx] at this
    cases this

theorem counted_newOctree {β : Type} {k : Unit → M β} {Q : State → Prop}
    (hk : Tr (Counted c fs fm true) (k ()) Q (CountedE a)) :
    Tr (Counted c fs fm false) (alloc .octree >>= fun h => setOctreePtr h >>= k) Q
      (CountedE a) := by
  intro s h
  simp only [wp_bind, wp_alloc, wp_setOctreePtr]
  exact hk _ (counted_same h (e := .alloc .octree s.trace.length) (by simp)
    (tally_alloc _ _) rfl h.surf h.modSurf rfl)

theorem counted_newModSurface {β : Type} {k : Unit → M β} {Q : State → Prop}
    (hk : Tr (Counted c fs true fo) (k ()) Q (CountedE a)) :
    Tr (Counted c fs false fo) (alloc .modSurface >>= fun h => setModSurfacePtr h >>= k) Q
      (CountedE a) := by
  intro s h
  simp only [wp_bind, wp_alloc, wp_setModSurfacePtr]
  exact hk _ (counted_same h (e := .alloc .modSurface s.trace.length) (by simp)
    (tally_alloc _ _) rfl h.surf rfl h.octree)

theorem counted_newSurface {β : Type} {k : Unit → M β} {Q : State → Prop}
    (hk : Tr (Counted c true fm fo) (k ()) Q (CountedE a)) :
    Tr (Counted c false fm fo) (alloc .surface >>= fun h => setSurfacePtr h >>= k) Q
      (CountedE a) := by
  intro s h
  simp only [wp_bind, wp_alloc, wp_setSurfacePtr]
  exact hk _ (counted_same h (e := .alloc .surface s.trace.length) (by simp)
    (tally_alloc _ _) rfl rfl h.modSurf h.octree)

end counted

section counted
variable {a : Bool} {c : Tally} {fs fm fo : Bool}

theorem counted_replaceSurface {β : Type} {k : Unit → M β} {Q : State → Prop}
    (hk : Tr (Counted c true fm fo) (k ()) Q (CountedE a)) :
    Tr (Counted c true fm fo)
      (alloc .surface >>= fun n => deleteSurface >>= fun _ => setSurfacePtr n >>= k) Q
      (CountedE a) := by
  intro s h
  obtain ⟨x, hx⟩ := Option.isSome_iff_exists.mp h.surf
  simp only [wp_bind, wp_alloc, wp_deleteSurface, wp_setSurfacePtr]
  refine ⟨fun y _ => hk _ ?_, fun hy => ?_⟩
  · have h1 : Counted c true fm fo (s.push (.alloc .surface s.trace.length)) :=
      counted_same h rfl (tally_alloc _ _) rfl h.surf h.modSurf h.octree
    exact counted_same h1 (e := .free .surface y) (by simp) (by rfl) rfl rfl h.modSurf h.octree
  · have : s.surfacePtr = none := hy
    rw [hx] at this
    cases this

theorem counted_tail_none {β : Type} (env : Env) (o : Op) {k : PUnit → M β}
    {Q : State → Prop} (hk : Tr (Counted c fs false fo) (k PUnit.unit) Q (CountedE a)) :
    Tr (Counted c fs false fo)
      (getState >>= fun s0 =>
        if s0.modSurfacePtr.isSome = true then
          (call env o >>= fun _ => deleteModSurface >>= k)
        else (pure PUnit.unit >>= k)) Q (CountedE a) := by
  intro s h
  simp only [wp_bind, wp_getState]
  rw [if_neg (by simp [h.modSurf])]
  simpa using hk s h

theorem counted_tail_some {β : Type} (env : Env) (o : Op) {k : PUnit → M β}
    {Q : State → Prop} (ho1 : OrderedAt c (.call o) = true)
    (hf : (c.failAt (some o)).ok a = true)
    (ho2 : OrderedAt (c.bump (.call o)) (.free .modSurface 0) = true)
    (hk : Tr (Counted ((c.bump (.call o)).bump (.free .modSurface 0)) fs false fo)
      (k PUnit.unit) Q (CountedE a)) :
    Tr (Counted c fs true fo)
      (getState >>= fun s0 =>
        if s0.modSurfacePtr.isSome = true then
          (call env o >>= fun _ => deleteModSurface >>= k)
        else (pure PUnit.unit >>= k)) Q (CountedE a) := by
  intro s h
  simp only [wp_bind, wp_getState]
  rw [if_pos h.modSurf]
  exact (tr_bind (counted_call env o ho1 hf) fun _ =>
    tr_bind (counted_deleteModSurface ho2) fun _ => hk) s h

end counted

theorem counted_finalTail (env : Env) (a fm : Bool) (c c1 : Tally)
    (h : (a = false ∧ fm = false ∧ c = ⟨1, 0, 0, 0, 0, 0⟩ ∧ c1 = ⟨1, 0, 0, 0, 0, 0⟩) ∨
      (a = true ∧ fm = true ∧ c = ⟨1, 0, 0, 0, 0, 0⟩ ∧ c1 = ⟨1, 0, 1, 1, 1, 0⟩) ∨
      (a = true ∧ fm = false ∧ c = ⟨2, 1, 1, 1, 1, 0⟩ ∧ c1 = ⟨2, 1, 1, 1, 1, 0⟩)) :
    Tr (Counted c true fm false)
      (call env .optimizeMeshFV >>= fun _ =>
        call env .optimizeLowQualityFaces >>= fun _ =>
        call env .optimizeBoundaryLayer >>= fun _ =>
        call env .untangleMeshFV >>= fun _ =>
        call env .clearAddressingData >>= fun _ =>
        getState >>= fun s0 =>
          if s0.modSurfacePtr.isSome = true then
            (call env .revertGeometryModification >>= fun _ =>
              deleteModSurface >>= fun _ => emit (.leave .optimiseFinalMesh))
          else (pure PUnit.unit >>= fun _ => emit (.leave .optimiseFinalMesh)))
      (Counted c1 true false false) (CountedE a) := by
  rcases h with ⟨rfl, rfl, rfl, rfl⟩ | ⟨rfl, rfl, rfl, rfl⟩ | ⟨rfl, rfl, rfl, rfl⟩
  · exact tr_bind (counted_call env _ (by decide) (by decide)) fun _ =>
      tr_bind (counted_call env _ (by decide) (by decide)) fun _ =>
      tr_bind (counted_call env _ (by decide) (by decide)) fun _ =>
      tr_bind (counted_call env _ (by decide) (by decide)) fun _ =>
      tr_bind (counted_call env _ (by decide) (by decide)) fun _ =>
      counted_tail_none env _ (tr_post (counted_emit _ rfl)
        fun _ h => counted_cast (by decide) h)
  · exact tr_bind (counted_call env _ (by decide) (by decide)) fun _ =>
      tr_bind (counted_call env _ (by decide) (by decide)) fun _ =>
      tr_bind (counted_call env _ (by decide) (by decide)) fun _ =>
      tr_bind (counted_call env _ (by decide) (by decide)) fun _ =>
      tr_bind (counted_call env _ (by decide) (by decide)) fun _ =>
      counted_tail_some env _ (by decide) (by decide) (by decide)
        (tr_post (counted_emit _ rfl) fun _ h => counted_cast (by decide) h)
  · exact tr_bind (counted_call env _ (by decide) (by decide)) fun _ =>
      tr_bind (counted_call env _ (by decide) (by decide)) fun _ =>
      tr_bind (counted_call env _ (by decide) (by decide)) fun _ =>
      tr_bind (counted_call env _ (by decide) (by decide)) fun _ =>
      tr_bind (counted_call env _ (by decide) (by decide)) fun _ =>
      counted_tail_none env _ (tr_post (counted_emit _ rfl)
        fun _ h => counted_cast (by decide) h)

theorem counted_call_inert {a : Bool} {c : Tally} {fs fm fo : Bool} (env : Env) (o : Op)
    (hz : tally [.call o] = Tally.zero)
    (hr : tally [.raised (some o) (.other "")] = Tally.zero)
    (ho : OrderedAt c (.call o) = true) (hok : c.ok a = true) :
    Tr (Counted c fs fm fo) (call env o) (Counted c fs fm fo) (CountedE a) := by
  have hf : (c.failAt (some o)).ok a = true := by
    unfold Tally.failAt
    rw [bump_of_zero hr]
    exact hok
  exact tr_post (counted_call env o ho hf) fun _ h => counted_cast (bump_of_zero hz) h

theorem counted_optimiseFinalMesh (env : Env) (a fm : Bool) (c0 c1 : Tally)
    (h : (a = false ∧ fm = false ∧ c0 = ⟨0, 0, 0, 0, 0, 0⟩ ∧ c1 = ⟨1, 0, 0, 0, 0, 0⟩) ∨
      (a = true ∧ fm = true ∧ c0 = ⟨0, 0, 0, 0, 0, 0⟩ ∧ c1 = ⟨1, 0, 1, 1, 1, 0⟩) ∨
      (a = true ∧ fm = false ∧ c0 = ⟨1, 1, 1, 1, 1, 0⟩ ∧ c1 = ⟨2, 1, 1, 1, 1, 0⟩)) :
    Tr (Counted c0 true fm true) (optimiseFinalMesh env) (Counted c1 true false false)
      (CountedE a) := by
  unfold optimiseFinalMesh
  dsimp only
  rcases h with ⟨rfl, rfl, rfl, rfl⟩ | ⟨rfl, rfl, rfl, rfl⟩ | ⟨rfl, rfl, rfl, rfl⟩
  all_goals
    refine tr_bind (counted_emit _ rfl) fun _ =>
      tr_bind (counted_liftRead _ (by decide)) fun enf =>
      tr_bind counted_useOctree fun _ => ?_
    cases enf
    · exact tr_bind (tr_pure _) fun _ => tr_bind counted_useOctree fun _ =>
        tr_bind (counted_call env _ (by decide) (by decide)) fun _ =>
        tr_bind counted_deleteOctree fun _ => tr_bind (tr_pure _) fun _ =>
        counted_finalTail env _ _ _ _ (by decide)
    · exact tr_bind counted_useOctree fun _ =>
        tr_bind (counted_call env _ (by decide) (by decide)) fun _ =>
        tr_bind counted_useOctree fun _ =>
        tr_bind (counted_call env _ (by decide) (by decide)) fun _ =>
        tr_bind counted_deleteOctree fun _ =>
        tr_bind (counted_call env _ (by decide) (by decide)) fun _ =>
        counted_finalTail env _ _ _ _ (by decide)

theorem counted_projectSurfaceAfterBackScaling (env : Env) (a : Bool) (c0 : Tally)
    (ha : env.meshDict.found "anisotropicSources" = a)
    (h : (a = false ∧ c0 = ⟨1, 0, 0, 0, 0, 0⟩) ∨ (a = true ∧ c0 = ⟨1, 0, 1, 1, 1, 0⟩)) :
    Tr (Counted c0 true false false) (projectSurfaceAfterBackScaling env)
      (Counted (Tally.finished a) true false false) (CountedE a) := by
  unfold projectSurfaceAfterBackScaling
  rw [ha]
  rcases h with ⟨rfl, rfl⟩ | ⟨rfl, rfl⟩
  · simp only [Bool.not_false, if_true]
    exact tr_bind (counted_emit _ rfl) fun _ =>
      tr_post (counted_emit _ rfl) fun _ h => counted_cast (by decide) h
  · simp only [Bool.not_true, Bool.false_eq_true, if_false]
    exact tr_bind (counted_emit _ rfl) fun _ =>
      tr_bind counted_deleteOctree fun _ => tr_bind counted_useSurface fun _ =>
      tr_bind (counted_call_inert env _ rfl rfl rfl (by decide)) fun _ => counted_newOctree <|
      tr_bind counted_useOctree fun _ => tr_bind counted_useOctree fun _ =>
      tr_bind (counted_call env _ (by decide) (by decide)) fun _ =>
      tr_bind counted_useOctree fun _ => tr_bind counted_useOctree fun _ =>
      tr_bind (counted_call env _ (by decide) (by decide)) fun _ =>
      tr_bind (counted_optimiseFinalMesh env true false _ ⟨2, 1, 1, 1, 1, 0⟩ (by decide))
        fun _ => tr_post (counted_emit _ rfl) fun _ h => counted_cast (by decide) h

theorem counted_finalisation (env : Env) (a : Bool)
    (ha : env.meshDict.found "anisotropicSources" = a) :
    Tr (Counted Tally.zero true a true) (finalisation env)
      (Counted (Tally.finished a) true false false) (CountedE a) := by
  unfold finalisation
  cases a
  · exact tr_bind (counted_optimiseFinalMesh env false false _ ⟨1, 0, 0, 0, 0, 0⟩ (by decide))
      fun _ => counted_projectSurfaceAfterBackScaling env false _ ha (by decide)
  · exact tr_bind (counted_optimiseFinalMesh env true true _ ⟨1, 0, 1, 1, 1, 0⟩ (by decide))
      fun _ => counted_projectSurfaceAfterBackScaling env true _ ha (by decide)

theorem counted_generateMesh (env : Env) (a : Bool)
    (ha : env.meshDict.found "anisotropicSources" = a) :
    Tr (Counted Tally.zero true a true) (generateMesh env)
      (CountedDone a (env.runCurrentStep "meshOptimisation")) (CountedE a) := by
  have hz : Tally.zero.ok a = true := by cases a <;> decide
  have hfin : (Tally.finished a).ok a = true := by cases a <;> decide
  rw [generateMesh_eq]
  refine tr_bind (tr_post (counted_emit _ rfl) fun _ h =>
    counted_cast (show Tally.zero.bump (.enter .generateMesh) = Tally.zero from rfl) h)
    fun _ => ?_
  refine tr_bind (tr_keeps (stage_before env (counted_stable hz) fun s h => h.octree))
    fun _ => ?_
  cases env.runCurrentStep "meshOptimisation"
  · refine tr_bind (tr_pure _) fun _ => ?_
    exact tr_post (tr_keeps (stage_after env (counted_stable hz))) fun _ h => ⟨h.tally, h.order⟩
  · refine tr_bind (counted_finalisation env a ha) fun _ => ?_
    exact tr_post (tr_keeps (stage_after env (counted_stable hfin))) fun _ h =>
      ⟨h.tally, h.order⟩

theorem counted_guardedBody (env : Env) :
    Tr (Counted Tally.zero false false false) (guardedBody env)
      (CountedDone (env.meshDict.found "anisotropicSources")
        (env.runCurrentStep "meshOptimisation"))
      (CountedE (env.meshDict.found "anisotropicSources")) := by
  have hgen := counted_generateMesh env _ rfl
  unfold guardedBody
  dsimp only
  generalize env.meshDict.found "anisotropicSources" = a at hgen ⊢
  cases a
  · simp only [Bool.false_eq_true, if_false]
    refine tr_bind (counted_call_inert env _ rfl rfl rfl (by decide)) fun _ =>
      tr_bind (counted_liftRead _ (by decide)) fun surfaceFile => ?_
    refine tr_bind (counted_call_inert env _ rfl rfl rfl (by decide)) fun _ =>
      counted_newSurface ?_
    refine tr_bind counted_useSurface fun _ => tr_bind counted_useSurface fun _ =>
      tr_bind (counted_call_inert env _ rfl rfl rfl (by decide)) fun _ => ?_
    refine tr_bind (counted_call_inert env _ rfl rfl rfl (by decide)) fun _ =>
      tr_bind (counted_call_inert env _ rfl rfl rfl (by decide)) fun _ => ?_
    refine tr_bind counted_useSurface fun _ => ?_
    refine tr_ite _
      (tr_bind counted_useSurface fun _ => tr_bind counted_useSurface fun _ =>
        tr_bind (counted_call_inert env _ rfl rfl rfl (by decide)) fun _ =>
        counted_replaceSurface ?_)
      (tr_bind (tr_pure _) fun _ => ?_)
    all_goals
      exact tr_bind counted_useSurface fun _ =>
        tr_bind (counted_call_inert env _ rfl rfl rfl (by decide)) fun _ =>
        counted_newOctree <| tr_bind counted_useOctree fun _ =>
        tr_bind counted_useOctree fun _ =>
        tr_bind (counted_call_inert env _ rfl rfl rfl (by decide)) fun _ => hgen
  · simp only [if_true]
    refine tr_bind (counted_call_inert env _ rfl rfl rfl (by decide)) fun _ =>
      tr_bind (counted_liftRead _ (by decide)) fun surfaceFile => ?_
    refine tr_bind (counted_call_inert env _ rfl rfl rfl (by decide)) fun _ =>
      counted_newSurface ?_
    refine tr_bind counted_useSurface fun _ => tr_bind counted_useSurface fun _ =>
      tr_bind (counted_call_inert env _ rfl rfl rfl (by decide)) fun _ => ?_
    refine tr_bind (counted_call_inert env _ rfl rfl rfl (by decide)) fun _ =>
      tr_bind (counted_call_inert env _ rfl rfl rfl (by decide)) fun _ => ?_
    refine tr_bind counted_useSurface fun _ => ?_
    refine tr_ite _
      (tr_bind counted_useSurface fun _ => tr_bind counted_useSurface fun _ =>
        tr_bind (counted_call_inert env _ rfl rfl rfl (by decide)) fun _ =>
        counted_replaceSurface ?_)
      (tr_bind (tr_pure _) fun _ => ?_)
    all_goals
      exact tr_bind counted_useSurface fun _ => tr_bind counted_useSurface fun _ =>
        tr_bind (counted_call_inert env _ rfl rfl rfl (by decide)) fun _ =>
        counted_newModSurface <| tr_bind counted_useModSurface fun _ =>
        tr_bind (counted_call_inert env _ rfl rfl rfl (by decide)) fun _ =>
        counted_newOctree <| tr_bind counted_useOctree fun _ =>
        tr_bind counted_useOctree fun _ =>
        tr_bind (counted_call_inert env _ rfl rfl rfl (by decide)) fun _ => hgen

theorem counted_initial : Counted Tally.zero false false false initial :=
  ⟨rfl, always_nil _, rfl, rfl, rfl⟩

theorem ok_cases {a : Bool} {c : Tally} (h : c.ok a = true) :
    c = Tally.finished a ∨
      (c.leftProject = 0 ∧ c.enterFinal ≤ (if a then 2 else 1) ∧
        c.backProj ≤ (if a then 1 else 0) ∧ c.reverted ≤ c.revertTried ∧
        c.revertTried ≤ (if a then 1 else 0) ∧ c.modFreed ≤ c.reverted) := by
  simpa [Tally.ok, and_assoc] using h

/-- What the counting pass establishes about the constructed object. -/
theorem construct_counted (env : Env) :
    Always Ordered (construct env).2.trace ∧
      (tally (construct env).2.trace).ok (env.meshDict.found "anisotropicSources") = true ∧
      (NoFail (construct env).2.trace → tally (construct env).2.trace =
        if env.runCurrentStep "meshOptimisation" then
          Tally.finished (env.meshDict.found "anisotropicSources")
        else Tally.zero) := by
  have h := counted_guardedBody env initial counted_initial
  unfold wp at h
  unfold construct
  rcases hb : guardedBody env initial with ⟨o, s⟩
  rw [hb] at h
  cases o with
  | ok u =>
    refine ⟨h.2, ?_, fun _ => h.1⟩
    show (tally s.trace).ok _ = true
    rw [h.1]
    cases env.runCurrentStep "meshOptimisation" <;>
      cases env.meshDict.found "anisotropicSources" <;> decide
  | threw f =>
    refine ⟨always_snoc h.2 rfl, ?_, fun hn => ?_⟩
    · show (tally (s.trace ++ [.diagnostic (diagnosticOf f)])).ok _ = true
      rw [tally_snoc, bump_of_zero (by rfl)]
      exact h.1
    · have := hn (.diagnostic (diagnosticOf f))
        (List.mem_append.mpr (Or.inr (List.mem_singleton.mpr rfl)))
      simp [Event.isFailure] at this
  | fault => exact h.elim

/-! ## Claims on finalisation -/

theorem leave_mem_iff (t : List Event) :
    Event.leave .projectSurfaceAfterBackScaling ∈ t ↔ (tally t).leftProject ≠ 0 := by
  show _ ↔ t.count (.leave .projectSurfaceAfterBackScaling) ≠ 0
  rw [Ne, List.count_eq_zero, not_not]

/-- C8: during construction the geometry-modification record is consumed at
most once: the revert is attempted at most once, and only when
`anisotropicSources` is declared (never otherwise); when it is declared and
the `meshOptimisation` stage has run to completion (`projectSurfaceAfterBackScaling`
has returned), the revert has been applied exactly once and the modified
surface released exactly once; every release of the modified surface during
construction happens after the revert has been applied once; and the revert
happens in the first finalisation pass. -/
theorem revert_consumed_once (env : Env) :
    ((construct env).2.trace.countP (Event.invokes .revertGeometryModification) ≤
        if env.meshDict.found "anisotropicSources" then 1 else 0) ∧
    (env.meshDict.found "anisotropicSources" = true →
      Event.leave .projectSurfaceAfterBackScaling ∈ (construct env).2.trace →
        (construct env).2.trace.count (.call .revertGeometryModification) = 1 ∧
        (construct env).2.trace.countP (Event.invokes .revertGeometryModification) = 1 ∧
        nFree .modSurface (construct env).2.trace = 1) ∧
    (∀ pre h post, (construct env).2.trace = pre ++ .free .modSurface h :: post →
      pre.count (.call .revertGeometryModification) = 1) ∧
    (∀ pre post, (construct env).2.trace = pre ++ .call .revertGeometryModification :: post →
      pre.count (.enter .optimiseFinalMesh) = 1) := by
  obtain ⟨hord, hok, _⟩ := construct_counted env
  refine ⟨?_, ?_, ?_, ?_⟩
  · rcases ok_cases hok with h | h
    · have : (tally (construct env).2.trace).revertTried =
          (Tally.finished (env.meshDict.found "anisotropicSources")).revertTried := by rw [h]
      cases hfa : env.meshDict.found "anisotropicSources" <;> rw [hfa] at this <;>
        exact Nat.le_of_eq this
    · exact h.2.2.2.2.1
  · intro ha hl
    rcases ok_cases hok with h | h
    · rw [ha] at h
      have h1 := congrArg Tally.reverted h
      have h2 := congrArg Tally.revertTried h
      have h3 := congrArg Tally.modFreed h
      exact ⟨h1, h2, h3⟩
    · exact absurd h.1 ((leave_mem_iff _).mp hl)
  · intro pre h post heq
    have := hord pre _ post heq
    simpa [Ordered, OrderedAt, tally] using this
  · intro pre post heq
    have := hord pre _ post heq
    simpa [Ordered, OrderedAt, tally] using this

set_option maxRecDepth 4000

/-- Instance of C8 at the complete run with `anisotropicSources`. -/
theorem revert_consumed_once_witness :
    (envAniso.meshDict.found "anisotropicSources" = true ∧
      Event.leave .projectSurfaceAfterBackScaling ∈ (construct envAniso).2.trace ∧
      (construct envAniso).2.trace = (construct envAniso).2.trace.take 74 ++
        .free .modSurface 12 :: (construct envAniso).2.trace.drop 75 ∧
      (construct envAniso).2.trace = (construct envAniso).2.trace.take 73 ++
        .call .revertGeometryModification :: (construct envAniso).2.trace.drop 74) ∧
    ((construct envAniso).2.trace.count (.call .revertGeometryModification) = 1 ∧
      (construct envAniso).2.trace.countP (Event.invokes .revertGeometryModification) = 1 ∧
      nFree .modSurface (construct envAniso).2.trace = 1) ∧
    ((construct envAniso).2.trace.take 74).count (.call .revertGeometryModification) = 1 ∧
    ((construct envAniso).2.trace.take 73).count (.enter .optimiseFinalMesh) = 1 :=
  ⟨⟨rfl, by decide, by decide, by decide⟩,
    (revert_consumed_once envAniso).2.1 rfl (by decide),
    (revert_consumed_once envAniso).2.2.1 _ 12 ((construct envAniso).2.trace.drop 75)
      (by decide),
    (revert_consumed_once envAniso).2.2.2 _ ((construct envAniso).2.trace.drop 74)
      (by decide)⟩

end VoronoiMeshGenerator
